import Mathlib

/-!
Verification of the stock-data consolidation engine (scripts/merge_data.py,
scripts/download_kline.py and collaborators) against its specification.

The Python code is shallowly embedded: dataframe rows become Lean structures,
pandas column operations become list functions, NaN becomes `Option.none`,
and numeric values are modelled as exact rationals.
-/

/-! ## Source Reconciler (merge_data.py, main loop, lines 253-255)

A raw shard row: an entity code, a date (represented by a comparable
integer day index for this component) and the remaining columns abstracted
as a payload `α`.  `pd.concat([df_hist, df_new])` is list append;
`drop_duplicates(subset=['code','date'], keep='last')` keeps, for each
(code, date) key, only its last occurrence, preserving the relative order
of the kept rows; `sort_values('date')` sorts by date.
-/

structure SRow (α : Type) where
  code : String
  date : Int
  val : α
deriving DecidableEq

def keyOf {α : Type} (r : SRow α) : String × Int := (r.code, r.date)

/-- `drop_duplicates(subset=keys, keep='last')`: a row survives iff its key
does not occur again later in the frame. -/
def keepLastBy {β κ : Type} [DecidableEq κ] (key : β → κ) : List β → List β
  | [] => []
  | r :: rest =>
    if key r ∈ rest.map key then keepLastBy key rest
    else r :: keepLastBy key rest

/-- `sort_values('date')` as a Bool relation for mergeSort. -/
def dateLeB {α : Type} (a b : SRow α) : Bool := decide (a.date ≤ b.date)

/-- The per-entity reconciliation of merge_data.py lines 253-255:
concatenate historical and incremental rows, deduplicate on (code, date)
keeping the most recently loaded row, sort by date. -/
def reconcile {α : Type} [DecidableEq α] (hist new : List (SRow α)) : List (SRow α) :=
  (keepLastBy keyOf (hist ++ new)).mergeSort dateLeB

/-! ### Reconciler lemmas -/

theorem keepLastBy_subset {β κ : Type} [DecidableEq κ] (key : β → κ) :
    ∀ l : List β, keepLastBy key l ⊆ l := by
  intro l
  induction l with
  | nil => simp [keepLastBy]
  | cons a l ih =>
    by_cases h : key a ∈ l.map key
    · simp only [keepLastBy, if_pos h]
      exact fun x hx => List.mem_cons_of_mem a (ih hx)
    · simp only [keepLastBy, if_neg h]
      intro x hx
      rcases List.mem_cons.mp hx with rfl | hx
      · exact List.mem_cons_self x l
      · exact List.mem_cons_of_mem a (ih hx)

theorem mem_keys_keepLastBy {β κ : Type} [DecidableEq κ] (key : β → κ)
    (l : List β) (k : κ) :
    k ∈ (keepLastBy key l).map key ↔ k ∈ l.map key := by
  induction l with
  | nil => simp [keepLastBy]
  | cons a l ih =>
    by_cases h : key a ∈ l.map key
    · simp only [keepLastBy, if_pos h, List.map_cons, List.mem_cons]
      rw [ih]
      constructor
      · exact Or.inr
      · rintro (rfl | hk)
        · exact h
        · exact hk
    · simp only [keepLastBy, if_pos, if_neg h, List.map_cons, List.mem_cons]
      rw [ih]

theorem nodup_keys_keepLastBy {β κ : Type} [DecidableEq κ] (key : β → κ)
    (l : List β) : ((keepLastBy key l).map key).Nodup := by
  induction l with
  | nil => simp [keepLastBy]
  | cons a l ih =>
    by_cases h : key a ∈ l.map key
    · simpa only [keepLastBy, if_pos h] using ih
    · simp only [keepLastBy, if_neg h, List.map_cons, List.nodup_cons]
      refine ⟨fun hk => h ?_, ih⟩
      exact (mem_keys_keepLastBy key l (key a)).mp hk

theorem filter_eq_nil_of_not_mem_keys {β κ : Type} [DecidableEq κ] (key : β → κ)
    (l : List β) (k : κ) (h : k ∉ l.map key) :
    l.filter (fun s => decide (key s = k)) = [] := by
  induction l with
  | nil => rfl
  | cons a l ih =>
    simp only [List.map_cons, List.mem_cons] at h
    push_neg at h
    rw [List.filter_cons]
    simp only [decide_eq_true_eq]
    rw [if_neg (fun he => h.1 he.symm)]
    exact ih h.2

theorem getLast_cons_ne_nil {γ : Type} (a : γ) (l : List γ) (h : l ≠ []) :
    (a :: l).getLast? = l.getLast? := by
  cases l with
  | nil => exact absurd rfl h
  | cons b t => exact List.getLast?_cons_cons

theorem getLast_filter_keepLastBy {β κ : Type} [DecidableEq κ] (key : β → κ)
    (l : List β) (r : β) (hr : r ∈ keepLastBy key l) :
    (l.filter (fun s => decide (key s = key r))).getLast? = some r := by
  induction l with
  | nil => simp [keepLastBy] at hr
  | cons a l ih =>
    by_cases h : key a ∈ l.map key
    · simp only [keepLastBy, if_pos h] at hr
      have hlast := ih hr
      rw [List.filter_cons]
      by_cases hak : key a = key r
      · have hne : l.filter (fun s => decide (key s = key r)) ≠ [] := by
          intro hnil
          have hrl : r ∈ l := keepLastBy_subset key l hr
          have hmem : r ∈ l.filter (fun s => decide (key s = key r)) := by
            rw [List.mem_filter]
            exact ⟨hrl, by simp⟩
          rw [hnil] at hmem
          simp at hmem
        rw [if_pos (by simp [hak]), getLast_cons_ne_nil a _ hne]
        exact hlast
      · rw [if_neg (by simp [hak])]
        exact hlast
    · simp only [keepLastBy, if_neg h] at hr
      rcases List.mem_cons.mp hr with rfl | hr
      · rw [List.filter_cons, if_pos (by simp),
          filter_eq_nil_of_not_mem_keys key l (key r) h]
        rfl
      · have hkr : key r ∈ l.map key := by
          have hrl : r ∈ l := keepLastBy_subset key l hr
          exact List.mem_map_of_mem key hrl
        rw [List.filter_cons]
        by_cases hak : key a = key r
        · rw [hak] at h
          exact absurd hkr h
        · rw [if_neg (by simp [hak])]
          exact ih hr

theorem reconcile_perm {α : Type} [DecidableEq α] (hist new : List (SRow α)) :
    (reconcile hist new).Perm (keepLastBy keyOf (hist ++ new)) :=
  List.mergeSort_perm _ _

theorem reconcile_subset {α : Type} [DecidableEq α] (hist new : List (SRow α)) :
    reconcile hist new ⊆ hist ++ new := by
  intro r hr
  have h1 : r ∈ keepLastBy keyOf (hist ++ new) :=
    (reconcile_perm hist new).mem_iff.mp hr
  exact keepLastBy_subset keyOf _ h1

theorem reconcile_sorted {α : Type} [DecidableEq α] (hist new : List (SRow α)) :
    List.Sorted (fun a b : SRow α => a.date ≤ b.date) (reconcile hist new) := by
  have h := @List.sorted_mergeSort (SRow α) dateLeB
    (fun a b c hab hbc => by
      simp only [dateLeB, decide_eq_true_eq] at hab hbc ⊢
      omega)
    (fun a b => by
      simp only [dateLeB]
      rcases le_total a.date b.date with h | h
      · simp [h]
      · simp [h])
    (keepLastBy keyOf (hist ++ new))
  exact h.imp (fun hab => by simpa [dateLeB] using hab)

theorem reconcile_keys_nodup {α : Type} [DecidableEq α] (hist new : List (SRow α)) :
    ((reconcile hist new).map keyOf).Nodup := by
  have hperm : ((keepLastBy keyOf (hist ++ new)).map keyOf).Perm
      ((reconcile hist new).map keyOf) :=
    ((reconcile_perm hist new).map keyOf).symm
  exact hperm.nodup (nodup_keys_keepLastBy keyOf _)

theorem reconcile_mem_keys {α : Type} [DecidableEq α] (hist new : List (SRow α))
    (k : String × Int) :
    k ∈ (reconcile hist new).map keyOf ↔ k ∈ (hist ++ new).map keyOf := by
  rw [← mem_keys_keepLastBy keyOf (hist ++ new) k]
  exact ((reconcile_perm hist new).map keyOf).mem_iff

/-! ### Claim C1 -/

/-- C1: for every entity, after reconciliation of the historical shard set and
the incremental shard set, the result contains exactly one row per
(entity, date) — the dates are pairwise distinct and exactly the dates present
in the two shard sets; whenever the incremental set contains a row for a date,
the surviving row is the most recently loaded incremental row for that date;
and the rows are sorted by date ascending. -/
theorem c1_reconcile_dedup_latest_sorted {α : Type} [DecidableEq α]
    (c : String) (hist new : List (SRow α))
    (hc : ∀ r ∈ hist ++ new, r.code = c) :
    ((reconcile hist new).map (fun r => r.date)).Nodup
    ∧ (∀ d : Int, d ∈ (reconcile hist new).map (fun r => r.date) ↔
        d ∈ (hist ++ new).map (fun r => r.date))
    ∧ (∀ r ∈ reconcile hist new, r.date ∈ new.map (fun r => r.date) →
        (new.filter (fun s => decide (s.date = r.date))).getLast? = some r)
    ∧ List.Sorted (fun a b : SRow α => a.date ≤ b.date) (reconcile hist new) := by
  refine ⟨?_, ?_, ?_, reconcile_sorted hist new⟩
  · have hkeys := reconcile_keys_nodup hist new
    have hmapeq : (reconcile hist new).map keyOf =
        ((reconcile hist new).map (fun r => r.date)).map (fun d => (c, d)) := by
      rw [List.map_map]
      apply List.map_congr_left
      intro r hr
      have hrc : r.code = c := hc r (reconcile_subset hist new hr)
      simp [keyOf, hrc]
    rw [hmapeq] at hkeys
    exact List.Nodup.of_map _ hkeys
  · intro d
    constructor
    · intro hd
      rcases List.mem_map.mp hd with ⟨r, hr, rfl⟩
      exact List.mem_map_of_mem _ (reconcile_subset hist new hr)
    · intro hd
      rcases List.mem_map.mp hd with ⟨r, hr, rfl⟩
      have hk : keyOf r ∈ ((hist ++ new).map keyOf) := List.mem_map_of_mem _ hr
      have hk2 : keyOf r ∈ ((reconcile hist new).map keyOf) :=
        (reconcile_mem_keys hist new (keyOf r)).mpr hk
      rcases List.mem_map.mp hk2 with ⟨r', hr', hkey⟩
      have hdate : r'.date = r.date := congrArg Prod.snd hkey
      rw [← hdate]
      exact List.mem_map_of_mem _ hr'
  · intro r hr hd
    have hrmem : r ∈ keepLastBy keyOf (hist ++ new) :=
      (reconcile_perm hist new).mem_iff.mp hr
    have hlast := getLast_filter_keepLastBy keyOf (hist ++ new) r hrmem
    have hrc : r.code = c := hc r (reconcile_subset hist new hr)
    have hfeq : (hist ++ new).filter (fun s => decide (keyOf s = keyOf r)) =
        (hist ++ new).filter (fun s => decide (s.date = r.date)) := by
      apply List.filter_congr
      intro s hs
      have hsc : s.code = c := hc s hs
      simp [keyOf, hsc, hrc]
    rw [hfeq, List.filter_append] at hlast
    have hne : new.filter (fun s => decide (s.date = r.date)) ≠ [] := by
      rcases List.mem_map.mp hd with ⟨s, hs, hsd⟩
      intro hnil
      have hmem : s ∈ new.filter (fun s' => decide (s'.date = r.date)) := by
        rw [List.mem_filter]
        exact ⟨hs, by simp [hsd]⟩
      rw [hnil] at hmem
      simp at hmem
    rw [List.getLast?_append_of_ne_nil _ hne] at hlast
    exact hlast

/-- Witness for C1: the spec scenario — a cold-archive row for date 102
(close 10) and an incremental row for the same date (close 10.5, corrected);
after reconciliation the single surviving row carries the incremental value. -/
theorem c1_witness :
    (∀ r ∈ ([⟨"A", 102, (10 : ℚ)⟩] ++ [⟨"A", 102, (21/2 : ℚ)⟩] :
        List (SRow ℚ)), r.code = "A")
    ∧ (((reconcile [⟨"A", 102, (10 : ℚ)⟩] [⟨"A", 102, (21/2 : ℚ)⟩]).map
          (fun r => r.date)).Nodup
      ∧ (∀ d : Int, d ∈ (reconcile [⟨"A", 102, (10 : ℚ)⟩]
            [⟨"A", 102, (21/2 : ℚ)⟩]).map (fun r => r.date) ↔
          d ∈ (([⟨"A", 102, (10 : ℚ)⟩] ++ [⟨"A", 102, (21/2 : ℚ)⟩] :
            List (SRow ℚ)).map (fun r => r.date)))
      ∧ (∀ r ∈ reconcile [⟨"A", 102, (10 : ℚ)⟩] [⟨"A", 102, (21/2 : ℚ)⟩],
          r.date ∈ ([⟨"A", 102, (21/2 : ℚ)⟩] : List (SRow ℚ)).map
            (fun r => r.date) →
          (([⟨"A", 102, (21/2 : ℚ)⟩] : List (SRow ℚ)).filter
            (fun s => decide (s.date = r.date))).getLast? = some r)
      ∧ List.Sorted (fun a b : SRow ℚ => a.date ≤ b.date)
          (reconcile [⟨"A", 102, (10 : ℚ)⟩] [⟨"A", 102, (21/2 : ℚ)⟩])) :=
  ⟨by intro r hr; rcases List.mem_cons.mp hr with rfl | hr <;> simp_all,
   c1_reconcile_dedup_latest_sorted "A" _ _
     (by intro r hr; rcases List.mem_cons.mp hr with rfl | hr <;> simp_all)⟩

/-! ## Canonical Schema Registry conformance (merge_data.py, lines 327-333)

Before a per-entity frame is written, every column of the final schema that
is absent from the frame is added as an all-NaN column
(`df[col] = np.nan`), and the frame is then re-indexed to exactly the
schema's columns in the schema's order (`df = df[final_schema.names]`),
which drops any extra column.  At row level a frame is an association list
from column name to an optional value (`none` = NaN).
-/

def completeAndAlign (schema : List String) (row : List (String × Option ℚ)) :
    List (String × Option ℚ) :=
  schema.map (fun c => (c, (row.lookup c).getD none))

/-! ### Claim C2 -/

/-- C2: each written row contains every column of the final schema in the
schema's order; a registry column absent from the working row appears with the
explicit missing value, a present column keeps its value, and any column not
in the schema is dropped. -/
theorem c2_schema_complete (schema : List String) (row : List (String × Option ℚ)) :
    ((completeAndAlign schema row).map Prod.fst = schema)
    ∧ (∀ c, c ∈ schema → row.lookup c = none →
        (c, (none : Option ℚ)) ∈ completeAndAlign schema row)
    ∧ (∀ c v, c ∈ schema → row.lookup c = some v →
        (c, v) ∈ completeAndAlign schema row)
    ∧ (∀ c v, (c, v) ∈ completeAndAlign schema row → c ∈ schema) := by
  refine ⟨?_, ?_, ?_, ?_⟩
  · rw [completeAndAlign, List.map_map]
    have hcomp : (Prod.fst ∘ fun c : String => (c, (row.lookup c).getD none))
        = id := rfl
    rw [hcomp, List.map_id]
  · intro c hc hnone
    rw [completeAndAlign]
    refine List.mem_map.mpr ⟨c, hc, ?_⟩
    rw [hnone]
    rfl
  · intro c v hc hv
    rw [completeAndAlign]
    refine List.mem_map.mpr ⟨c, hc, ?_⟩
    rw [hv]
    rfl
  · intro c v hcv
    rcases List.mem_map.mp hcv with ⟨c', hc', heq⟩
    have : c' = c := congrArg Prod.fst heq
    rw [← this]
    exact hc'

/-- Witness for C2 at a concrete schema and row: column a is absent from the
row (added as missing), column b keeps its value 1, and the extra column z of
the row is dropped. -/
theorem c2_witness :
    ((completeAndAlign ["a", "b"] [("b", some 1), ("z", some 2)]).map Prod.fst
      = ["a", "b"])
    ∧ ("a" ∈ ["a", "b"])
    ∧ ([("b", some (1 : ℚ)), ("z", some 2)].lookup "a" = none)
    ∧ (("a", (none : Option ℚ)) ∈
        completeAndAlign ["a", "b"] [("b", some 1), ("z", some 2)])
    ∧ (("b", some (1 : ℚ)) ∈
        completeAndAlign ["a", "b"] [("b", some 1), ("z", some 2)])
    ∧ (∀ v, ("z", v) ∈ completeAndAlign ["a", "b"] [("b", some 1), ("z", some 2)]
        → "z" ∈ ["a", "b"]) :=
  ⟨(c2_schema_complete ["a", "b"] [("b", some 1), ("z", some 2)]).1,
   by decide,
   by rfl,
   (c2_schema_complete ["a", "b"] [("b", some 1), ("z", some 2)]).2.1
     "a" (by decide) (by rfl),
   (c2_schema_complete ["a", "b"] [("b", some 1), ("z", some 2)]).2.2.1
     "b" (some 1) (by decide) (by rfl),
   fun v hv =>
     (c2_schema_complete ["a", "b"] [("b", some 1), ("z", some 2)]).2.2.2
       "z" v hv⟩

/-! ## Indicator Engine: rolling means (merge_data.py, lines 63-64 and 67-68)

`df['close'].rolling(window=w).mean()`: with pandas' default
`min_periods = window`, position `i` holds NaN while fewer than `w`
observations exist (`i < w-1`) and otherwise the arithmetic mean of the
window ending at `i`; a NaN inside a full window also yields NaN.
-/

def rollingMean (w : Nat) (xs : List (Option ℚ)) : List (Option ℚ) :=
  (List.range xs.length).map (fun i =>
    if i + 1 < w then none
    else if ((xs.drop (i + 1 - w)).take w).any (fun x => x.isNone) then none
    else some ((((xs.drop (i + 1 - w)).take w).filterMap id).sum / (w : ℚ)))

theorem filterMap_id_replicate_some (w : Nat) (c : ℚ) :
    (List.replicate w (some c)).filterMap id = List.replicate w c := by
  induction w with
  | zero => rfl
  | succ n ih => simp [List.replicate_succ, ih]

theorem rollingMean_replicate (w N : Nat) (hw : 0 < w) (c : ℚ) (i : Nat)
    (hi : i < N) :
    (rollingMean w (List.replicate N (some c)))[i]? =
      some (if i < w - 1 then none else some c) := by
  have hlen : (List.replicate N (some c)).length = N := List.length_replicate N _
  rw [rollingMean, hlen, List.getElem?_map, List.getElem?_range hi,
    Option.map_some']
  congr 1
  by_cases hlt : i + 1 < w
  · rw [if_pos hlt, if_pos (show i < w - 1 by omega)]
  · rw [if_neg hlt, if_neg (show ¬ i < w - 1 by omega)]
    have hwin : ((List.replicate N (some c)).drop (i + 1 - w)).take w =
        List.replicate w (some c) := by
      rw [List.drop_replicate, List.take_replicate]
      congr 1
      omega
    have hany : (List.replicate w (some c)).any (fun x => x.isNone) = false := by
      simp [List.any_eq_true, List.mem_replicate]
    have hw' : (w : ℚ) ≠ 0 := Nat.cast_ne_zero.mpr hw.ne'
    rw [hwin, hany]
    simp only [Bool.false_eq_true, if_false, filterMap_id_replicate_some,
      List.sum_replicate, nsmul_eq_mul]
    rw [mul_div_cancel_left₀ c hw']

/-! ### Claim C3 -/

/-- C3: for every window w in {5,10,20,60,120,250} and every chronologically
sorted constant close-price series of length N, the computed ma_w is the
missing value at every index i < w-1 and equals the constant at every index
i ≥ w-1 — never zero and never extrapolated. -/
theorem c3_ma_constant_series :
    ∀ w ∈ [5, 10, 20, 60, 120, 250], ∀ (N : Nat) (c : ℚ) (i : Nat), i < N →
      (rollingMean w (List.replicate N (some c)))[i]? =
        some (if i < w - 1 then none else some c) := by
  intro w hw N c i hi
  have hcases : w = 5 ∨ w = 10 ∨ w = 20 ∨ w = 60 ∨ w = 120 ∨ w = 250 := by
    simpa using hw
  have hwpos : 0 < w := by
    rcases hcases with rfl | rfl | rfl | rfl | rfl | rfl <;> omega
  exact rollingMean_replicate w N hwpos c i hi

/-- Witness for C3: the spec scenario at small scale — a constant series, a
window of 5; index 3 yields missing, index 5 yields the constant. -/
theorem c3_witness :
    ((5 : Nat) ∈ [5, 10, 20, 60, 120, 250])
    ∧ (3 < 6 ∧ (rollingMean 5 (List.replicate 6 (some (7 : ℚ))))[3]? =
        some (if 3 < 5 - 1 then none else some 7))
    ∧ (5 < 6 ∧ (rollingMean 5 (List.replicate 6 (some (7 : ℚ))))[5]? =
        some (if 5 < 5 - 1 then none else some 7)) :=
  ⟨by decide,
   ⟨by decide, c3_ma_constant_series 5 (by decide) 6 7 3 (by decide)⟩,
   ⟨by decide, c3_ma_constant_series 5 (by decide) 6 7 5 (by decide)⟩⟩

/-! ## Fund-flow merge (merge_data.py, lines 284-290)

`pd.merge(df, df_flow, on=['date','code'], how='left', suffixes=('', '_new'))`
followed by, for each fund-flow column,
`df[col] = df[col + '_new'].combine_first(df[col])`: a left join on
(code, date) where, on overlapping columns, the fund-flow shard's value is
taken when it is non-missing and the previously present value is retained
otherwise.  The five fund-flow columns of the code (flow_cols) form an
enumeration.
-/

inductive FlowCol : Type
  | net_flow_amount
  | main_net_flow
  | super_large_net_flow
  | large_net_flow
  | medium_small_net_flow
deriving DecidableEq, Fintype

/-- A row of the per-entity fund-flow shard. -/
structure FRow where
  code : String
  date : Int
  flows : FlowCol → Option ℚ

/-- A reconciled daily row: (code, date) key, fund-flow columns, and the
non-flow columns abstracted as one payload value. -/
structure DRow where
  code : String
  date : Int
  flows : FlowCol → Option ℚ
  rest : ℚ

/-- `Series.combine_first`: the caller's (fund-flow) value wins when it is
non-missing, otherwise the other value is kept. -/
def firstNonMissing (new old : Option ℚ) : Option ℚ :=
  match new with
  | some v => some v
  | none => old

/-- The effect of the left join plus combine_first on a single reconciled
row: if the flow shard has a row with the same (code, date), each flow column
becomes the flow shard's value when non-missing, else the old value; rows
without a match are unchanged. -/
def mergeRowFlow (flow : List FRow) (r : DRow) : DRow :=
  match flow.find? (fun f => decide (f.code = r.code ∧ f.date = r.date)) with
  | none => r
  | some f => { r with flows := fun col => firstNonMissing (f.flows col) (r.flows col) }

/-- merge_data.py lines 284-290 applied to the whole frame. -/
def mergeFundflow (df : List DRow) (flow : List FRow) : List DRow :=
  df.map (mergeRowFlow flow)

theorem find?_eq_some_of_nodup_keys (flow : List FRow) (f : FRow) (r : DRow)
    (hnd : (flow.map (fun g => (g.code, g.date))).Nodup)
    (hf : f ∈ flow) (hcode : f.code = r.code) (hdate : f.date = r.date) :
    flow.find? (fun g => decide (g.code = r.code ∧ g.date = r.date)) = some f := by
  induction flow with
  | nil => simp at hf
  | cons a flow ih =>
    simp only [List.map_cons, List.nodup_cons] at hnd
    rcases List.mem_cons.mp hf with rfl | hf
    · rw [List.find?_cons_of_pos]
      simp [hcode, hdate]
    · rw [List.find?_cons_of_neg, ih hnd.2 hf]
      simp only [decide_eq_true_eq]
      rintro ⟨hac, had⟩
      apply hnd.1
      have : (a.code, a.date) = (f.code, f.date) := by
        rw [hac, had, hcode, hdate]
      rw [this]
      exact List.mem_map_of_mem _ hf

/-! ### Claim C4 -/

/-- C4: the fund-flow join is a left join on (code, date); where the flow
shard supplies a non-missing value for a flow column it wins, where its value
is missing the previously present value is retained, non-flow fields and
unmatched rows pass through unchanged, and each frame row is mapped in place. -/
theorem c4_fundflow_first_non_missing (df : List DRow) (flow : List FRow)
    (hnd : (flow.map (fun g => (g.code, g.date))).Nodup) :
    (∀ r : DRow, (∀ f ∈ flow, ¬(f.code = r.code ∧ f.date = r.date)) →
      mergeRowFlow flow r = r)
    ∧ (∀ r : DRow, ∀ f ∈ flow, f.code = r.code → f.date = r.date →
        (mergeRowFlow flow r).code = r.code
        ∧ (mergeRowFlow flow r).date = r.date
        ∧ (mergeRowFlow flow r).rest = r.rest
        ∧ (∀ col v, f.flows col = some v → (mergeRowFlow flow r).flows col = some v)
        ∧ (∀ col, f.flows col = none → (mergeRowFlow flow r).flows col = r.flows col))
    ∧ (∀ r ∈ df, mergeRowFlow flow r ∈ mergeFundflow df flow)
    ∧ (mergeFundflow df flow).length = df.length := by
  refine ⟨?_, ?_, ?_, ?_⟩
  · intro r hno
    rw [mergeRowFlow]
    have hfind : flow.find? (fun f => decide (f.code = r.code ∧ f.date = r.date))
        = none := by
      rw [List.find?_eq_none]
      intro f hf
      simp only [decide_eq_true_eq]
      exact hno f hf
    rw [hfind]
  · intro r f hf hcode hdate
    rw [mergeRowFlow, find?_eq_some_of_nodup_keys flow f r hnd hf hcode hdate]
    refine ⟨rfl, rfl, rfl, ?_, ?_⟩
    · intro col v hv
      simp [firstNonMissing, hv]
    · intro col hv
      simp [firstNonMissing, hv]
  · intro r hr
    exact List.mem_map_of_mem _ hr
  · exact List.length_map df _

/-- Witness for C4 at concrete rows: the flow shard's non-missing value 5
overrides the existing value 1, its missing value leaves the old value 2 in
place, and a row with no matching flow date is unchanged. -/
theorem c4_witness :
    (([⟨"A", 10, fun col => if col = FlowCol.net_flow_amount then some 5 else none⟩] :
        List FRow).map (fun g => (g.code, g.date))).Nodup
    ∧ ((mergeRowFlow
          [⟨"A", 10, fun col => if col = FlowCol.net_flow_amount then some 5 else none⟩]
          ⟨"A", 10, fun col => if col = FlowCol.net_flow_amount then some 1 else some 2,
            3⟩).flows FlowCol.net_flow_amount = some 5)
    ∧ ((mergeRowFlow
          [⟨"A", 10, fun col => if col = FlowCol.net_flow_amount then some 5 else none⟩]
          ⟨"A", 10, fun col => if col = FlowCol.net_flow_amount then some 1 else some 2,
            3⟩).flows FlowCol.main_net_flow = some 2)
    ∧ (mergeRowFlow
          [⟨"A", 10, fun col => if col = FlowCol.net_flow_amount then some 5 else none⟩]
          ⟨"A", 99, fun _ => some 4, 3⟩
        = ⟨"A", 99, fun _ => some 4, 3⟩) := by
  have hnd : (([⟨"A", 10, fun col => if col = FlowCol.net_flow_amount then some 5 else none⟩] :
      List FRow).map (fun g => (g.code, g.date))).Nodup := by
    simp
  refine ⟨hnd, ?_, ?_, ?_⟩
  · exact ((c4_fundflow_first_non_missing [] _ hnd).2.1
      ⟨"A", 10, fun col => if col = FlowCol.net_flow_amount then some 1 else some 2, 3⟩
      _ (List.mem_singleton_self _) rfl rfl).2.2.2.1
      FlowCol.net_flow_amount 5 (by simp)
  · exact ((c4_fundflow_first_non_missing [] _ hnd).2.1
      ⟨"A", 10, fun col => if col = FlowCol.net_flow_amount then some 1 else some 2, 3⟩
      _ (List.mem_singleton_self _) rfl rfl).2.2.2.2
      FlowCol.main_net_flow (by simp) |>.trans (by simp)
  · exact (c4_fundflow_first_non_missing [] _ hnd).1
      ⟨"A", 99, fun _ => some 4, 3⟩
      (by intro f hf; rw [List.mem_singleton] at hf; subst hf; simp)

/-! ## Resampling Engine (merge_data.py, lines 111-149 and 301-319)

`df.set_index('date').resample('W-FRI').agg(agg_rules).dropna(subset=['close'])`
and the same with `'ME'`.  Dates are civil (y, m, d) triples; `'W-FRI'` bins
rows by the Friday ending their week, `'ME'` by calendar month.  The pandas
aggregators skip missing values: `first`/`last` take the first/last
non-missing value, `sum` adds the non-missing values (0 for an all-missing
window), `max`/`min`/`mean` act on the non-missing values (missing for an
all-missing window).  `dropna(subset=['close'])` then removes every bucket
whose aggregated close is missing.
-/

structure Date where
  y : Int
  m : Int
  d : Int
deriving DecidableEq

/-- Days since 1970-01-01 of a civil Gregorian date (standard civil-from-days
inverse, for the year range the data uses). -/
def daysFromCivil (dt : Date) : Int :=
  let yy := if dt.m ≤ 2 then dt.y - 1 else dt.y
  let era := yy / 400
  let yoe := yy - era * 400
  let mp := (dt.m + 9) % 12
  let doy := (153 * mp + 2) / 5 + dt.d - 1
  let doe := yoe * 365 + yoe / 4 - yoe / 100 + doy
  era * 146097 + doe - 719468

/-- The `'W-FRI'` bin label of a date: the day number of the Friday on or
after it (1970-01-01 is a Thursday, so weekday 5 below is Friday). -/
def weekKey (dt : Date) : Int :=
  let dn := daysFromCivil dt
  dn + (5 - (dn + 4) % 7 + 7) % 7

/-- The `'ME'` (calendar month) bin label of a date. -/
def monthKey (dt : Date) : Int :=
  dt.y * 12 + (dt.m - 1)

/-- One indicator-enriched daily row as seen by the resampler: exactly the
columns named in agg_rules, plus the fund-flow columns. -/
structure DailyBar where
  date : Date
  open_ : Option ℚ
  close : Option ℚ
  high : Option ℚ
  low : Option ℚ
  volume : Option ℚ
  amount : Option ℚ
  turn : Option ℚ
  peTTM : Option ℚ
  pbMRQ : Option ℚ
  mkt_cap : Option ℚ
  adjustFactor : Option ℚ
  flows : FlowCol → Option ℚ

/-- pandas groupby `'first'`: first non-missing value of the window. -/
def firstSome (xs : List (Option ℚ)) : Option ℚ := xs.findSome? id

/-- pandas groupby `'last'`: last non-missing value of the window. -/
def lastSome (xs : List (Option ℚ)) : Option ℚ := xs.reverse.findSome? id

/-- pandas groupby `'sum'`: sum of the non-missing values (0 if none). -/
def sumSome (xs : List (Option ℚ)) : ℚ := (xs.filterMap id).sum

/-- pandas groupby `'max'` over the non-missing values. -/
def maxSome (xs : List (Option ℚ)) : Option ℚ := (xs.filterMap id).max?

/-- pandas groupby `'min'` over the non-missing values. -/
def minSome (xs : List (Option ℚ)) : Option ℚ := (xs.filterMap id).min?

/-- pandas groupby `'mean'` over the non-missing values. -/
def meanSome (xs : List (Option ℚ)) : Option ℚ :=
  if (xs.filterMap id).length = 0 then none
  else some ((xs.filterMap id).sum / ((xs.filterMap id).length : ℚ))

/-- An aggregated weekly or monthly bar (columns of agg_rules). -/
structure AggBar where
  open_ : Option ℚ
  close : Option ℚ
  high : Option ℚ
  low : Option ℚ
  volume : ℚ
  amount : ℚ
  turn : Option ℚ
  peTTM : Option ℚ
  pbMRQ : Option ℚ
  mkt_cap : Option ℚ
  adjustFactor : Option ℚ
  flows : FlowCol → ℚ

/-- `agg(agg_rules)` on one bucket followed by `dropna(subset=['close'])`:
no bar is produced when the aggregated close is missing. -/
def aggBucket (rows : List DailyBar) : Option AggBar :=
  match lastSome (rows.map (fun r => r.close)) with
  | none => none
  | some c => some
    { open_ := firstSome (rows.map (fun r => r.open_))
      close := some c
      high := maxSome (rows.map (fun r => r.high))
      low := minSome (rows.map (fun r => r.low))
      volume := sumSome (rows.map (fun r => r.volume))
      amount := sumSome (rows.map (fun r => r.amount))
      turn := meanSome (rows.map (fun r => r.turn))
      peTTM := lastSome (rows.map (fun r => r.peTTM))
      pbMRQ := lastSome (rows.map (fun r => r.pbMRQ))
      mkt_cap := lastSome (rows.map (fun r => r.mkt_cap))
      adjustFactor := lastSome (rows.map (fun r => r.adjustFactor))
      flows := fun col => sumSome (rows.map (fun r => r.flows col)) }

/-- `resample(freq).agg(agg_rules).dropna(subset=['close'])`: bucket the rows
by the bin key, aggregate each bucket in ascending key order, and keep only
buckets whose aggregated close exists. -/
def resampleBy (key : Date → Int) (rows : List DailyBar) : List (Int × AggBar) :=
  ((rows.map (fun r => key r.date)).dedup.mergeSort
      (fun a b => decide (a ≤ b))).filterMap
    (fun k => (aggBucket (rows.filter (fun r => decide (key r.date = k)))).map
      (fun bar => (k, bar)))

/-- Weekly (Friday-ending) resample. -/
def resampleW (rows : List DailyBar) : List (Int × AggBar) := resampleBy weekKey rows

/-- Monthly resample. -/
def resampleM (rows : List DailyBar) : List (Int × AggBar) := resampleBy monthKey rows

/-- A fully populated trading day (no missing field). -/
structure PlainBar where
  date : Date
  open_ : ℚ
  close : ℚ
  high : ℚ
  low : ℚ
  volume : ℚ
  amount : ℚ
  turn : ℚ
  peTTM : ℚ
  pbMRQ : ℚ
  mkt_cap : ℚ
  adjustFactor : ℚ
  flows : FlowCol → ℚ

def toDaily (p : PlainBar) : DailyBar :=
  ⟨p.date, some p.open_, some p.close, some p.high, some p.low, some p.volume,
   some p.amount, some p.turn, some p.peTTM, some p.pbMRQ, some p.mkt_cap,
   some p.adjustFactor, fun col => some (p.flows col)⟩

/-! ### Resampling lemmas -/

theorem lastSome_eq_none_iff (xs : List (Option ℚ)) :
    lastSome xs = none ↔ ∀ x ∈ xs, x = none := by
  rw [lastSome, List.findSome?_eq_none_iff]
  constructor
  · intro h x hx
    exact h x (List.mem_reverse.mpr hx)
  · intro h x hx
    exact h x (List.mem_reverse.mp hx)

theorem aggBucket_eq_none_iff (rows : List DailyBar) :
    aggBucket rows = none ↔ ∀ r ∈ rows, r.close = none := by
  constructor
  · intro h r hr
    rw [aggBucket] at h
    rcases hl : lastSome (rows.map (fun r => r.close)) with _ | c
    · rw [lastSome_eq_none_iff] at hl
      exact hl r.close (List.mem_map_of_mem _ hr)
    · rw [hl] at h
      exact absurd h (by simp)
  · intro hall
    rw [aggBucket]
    have hnone : lastSome (rows.map (fun r => r.close)) = none := by
      rw [lastSome_eq_none_iff]
      intro x hx
      rcases List.mem_map.mp hx with ⟨r, hr, rfl⟩
      exact hall r hr
    rw [hnone]

theorem map_some_comp {γ : Type} (f : γ → ℚ) (l : List γ) :
    l.map (fun r => some (f r)) = (l.map f).map some := by
  rw [List.map_map]
  rfl

theorem firstSome_map_some (l : List ℚ) : firstSome (l.map some) = l.head? := by
  induction l with
  | nil => rfl
  | cons a l ih => rw [List.map_cons, firstSome, List.findSome?_cons]; rfl

theorem lastSome_map_some (l : List ℚ) : lastSome (l.map some) = l.getLast? := by
  have h1 : (l.map some).reverse = l.reverse.map some := by
    simp [List.map_reverse]
  rw [lastSome, h1]
  have h2 : (l.reverse.map some).findSome? id = firstSome (l.reverse.map some) := rfl
  rw [h2, firstSome_map_some, List.head?_reverse]

theorem filterMap_id_map_some (l : List ℚ) : (l.map some).filterMap id = l := by
  rw [List.filterMap_map]
  exact List.filterMap_some l

theorem not_mem_resampleBy (key : Date → Int) (rows : List DailyBar) (k : Int)
    (h : ∀ r ∈ rows, key r.date = k → r.close = none) :
    ∀ bar, (k, bar) ∉ resampleBy key rows := by
  intro bar hmem
  rw [resampleBy] at hmem
  rcases List.mem_filterMap.mp hmem with ⟨k', _, heq⟩
  rcases Option.map_eq_some'.mp heq with ⟨bar', hbar', hpair⟩
  have hk : k' = k := congrArg Prod.fst hpair
  subst hk
  have hall : ∀ r ∈ rows.filter (fun r => decide (key r.date = k')), r.close = none := by
    intro r hr
    rw [List.mem_filter] at hr
    exact h r hr.1 (by simpa using hr.2)
  rw [(aggBucket_eq_none_iff _).mpr hall] at hbar'
  exact Option.noConfusion hbar'

theorem mapToDaily_proj (f : PlainBar → ℚ) (g : DailyBar → Option ℚ)
    (hfg : ∀ r, g (toDaily r) = some (f r)) (p : List PlainBar) :
    (p.map toDaily).map g = (p.map f).map some := by
  rw [List.map_map, List.map_map]
  apply List.map_congr_left
  intro r _
  exact hfg r

/-! ### Claim C5 -/

/-- C5: a resample bucket produces no bar iff it contains no row with a
non-missing close; on a fully populated bucket the aggregated bar has
open = first day's open, close = last day's close, high/low = window extrema,
volume/amount/fund-flow = window sums, turnover = window mean, and
valuation/market-cap/adjustment factor = last value in window; and a weekly
(Friday-ending) or monthly bucket whose rows all lack a close yields no
output bar. -/
theorem c5_resample_agg_rules :
    (∀ rows : List DailyBar, aggBucket rows = none ↔ ∀ r ∈ rows, r.close = none)
    ∧ (∀ (p : List PlainBar) (hp : p ≠ []), ∃ bar : AggBar,
        aggBucket (p.map toDaily) = some bar
        ∧ bar.open_ = some ((p.head hp).open_)
        ∧ bar.close = some ((p.getLast hp).close)
        ∧ bar.high = (p.map (fun r => r.high)).max?
        ∧ bar.low = (p.map (fun r => r.low)).min?
        ∧ bar.volume = (p.map (fun r => r.volume)).sum
        ∧ bar.amount = (p.map (fun r => r.amount)).sum
        ∧ (∀ col, bar.flows col = (p.map (fun r => r.flows col)).sum)
        ∧ bar.turn = some ((p.map (fun r => r.turn)).sum / (p.length : ℚ))
        ∧ bar.peTTM = some ((p.getLast hp).peTTM)
        ∧ bar.pbMRQ = some ((p.getLast hp).pbMRQ)
        ∧ bar.mkt_cap = some ((p.getLast hp).mkt_cap)
        ∧ bar.adjustFactor = some ((p.getLast hp).adjustFactor))
    ∧ (∀ (rows : List DailyBar) (k : Int),
        (∀ r ∈ rows, weekKey r.date = k → r.close = none) →
        ∀ bar, (k, bar) ∉ resampleW rows)
    ∧ (∀ (rows : List DailyBar) (k : Int),
        (∀ r ∈ rows, monthKey r.date = k → r.close = none) →
        ∀ bar, (k, bar) ∉ resampleM rows) := by
  refine ⟨aggBucket_eq_none_iff, ?_, ?_, ?_⟩
  · intro p hp
    have hlastF : ∀ (f : PlainBar → ℚ) (g : DailyBar → Option ℚ),
        (∀ r, g (toDaily r) = some (f r)) →
        lastSome ((p.map toDaily).map g) = some (f (p.getLast hp)) := by
      intro f g hfg
      rw [mapToDaily_proj f g hfg p, lastSome_map_some, List.getLast?_map,
        List.getLast?_eq_getLast_of_ne_nil hp]
      rfl
    have hsumF : ∀ (f : PlainBar → ℚ) (g : DailyBar → Option ℚ),
        (∀ r, g (toDaily r) = some (f r)) →
        sumSome ((p.map toDaily).map g) = (p.map f).sum := by
      intro f g hfg
      rw [mapToDaily_proj f g hfg p, sumSome, filterMap_id_map_some]
    have hclose := hlastF (fun r => r.close) (fun r => r.close) (fun _ => rfl)
    refine ⟨_, by rw [aggBucket, hclose], ?_, rfl, ?_, ?_, ?_, ?_, ?_, ?_, ?_,
      ?_, ?_, ?_⟩
    · show firstSome ((p.map toDaily).map (fun r => r.open_)) = _
      rw [mapToDaily_proj (fun r => r.open_) _ (fun _ => rfl) p,
        firstSome_map_some, List.head?_map, List.head?_eq_head hp]
      rfl
    · show maxSome ((p.map toDaily).map (fun r => r.high)) = _
      rw [maxSome, mapToDaily_proj (fun r => r.high) _ (fun _ => rfl) p,
        filterMap_id_map_some]
    · show minSome ((p.map toDaily).map (fun r => r.low)) = _
      rw [minSome, mapToDaily_proj (fun r => r.low) _ (fun _ => rfl) p,
        filterMap_id_map_some]
    · exact hsumF (fun r => r.volume) _ (fun _ => rfl)
    · exact hsumF (fun r => r.amount) _ (fun _ => rfl)
    · intro col
      exact hsumF (fun r => r.flows col) (fun r => r.flows col) (fun _ => rfl)
    · show meanSome ((p.map toDaily).map (fun r => r.turn)) = _
      rw [meanSome, mapToDaily_proj (fun r => r.turn) _ (fun _ => rfl) p,
        filterMap_id_map_some]
      rw [if_neg (by simp [hp]), List.length_map]
    · exact hlastF (fun r => r.peTTM) _ (fun _ => rfl)
    · exact hlastF (fun r => r.pbMRQ) _ (fun _ => rfl)
    · exact hlastF (fun r => r.mkt_cap) _ (fun _ => rfl)
    · exact hlastF (fun r => r.adjustFactor) _ (fun _ => rfl)
  · intro rows k h
    exact not_mem_resampleBy weekKey rows k h
  · intro rows k h
    exact not_mem_resampleBy monthKey rows k h

/-- A fully populated synthetic trading day with all numeric fields v. -/
def pbAt (dt : Date) (v : ℚ) : PlainBar :=
  ⟨dt, v, v, v, v, v, v, v, v, v, v, v, fun _ => v⟩

/-- One full calendar week of trading days, Monday 2024-03-04 to Friday
2024-03-08. -/
def weekBars : List PlainBar :=
  [pbAt ⟨2024, 3, 4⟩ 1, pbAt ⟨2024, 3, 5⟩ 2, pbAt ⟨2024, 3, 6⟩ 3,
   pbAt ⟨2024, 3, 7⟩ 4, pbAt ⟨2024, 3, 8⟩ 5]

theorem weekBars_ne_nil : weekBars ≠ [] := by simp [weekBars]

/-- A daily row whose close (and everything else) is missing. -/
def emptyCloseBar : DailyBar :=
  ⟨⟨2024, 3, 4⟩, none, none, none, none, none, none, none, none, none, none,
   none, fun _ => none⟩

/-- Witness for C5: the aggregation rules evaluated on one concrete full
trading week, the no-close bucket rules at a concrete bucket, and the
Friday-ending week boundary evaluated on concrete dates (Monday 2024-03-04
and Friday 2024-03-08 share a bucket, Saturday 2024-03-09 does not). -/
theorem c5_witness :
    weekBars ≠ []
    ∧ (∃ bar : AggBar,
        aggBucket (weekBars.map toDaily) = some bar
        ∧ bar.open_ = some ((weekBars.head weekBars_ne_nil).open_)
        ∧ bar.close = some ((weekBars.getLast weekBars_ne_nil).close)
        ∧ bar.high = (weekBars.map (fun r => r.high)).max?
        ∧ bar.low = (weekBars.map (fun r => r.low)).min?
        ∧ bar.volume = (weekBars.map (fun r => r.volume)).sum
        ∧ bar.amount = (weekBars.map (fun r => r.amount)).sum
        ∧ (∀ col, bar.flows col = (weekBars.map (fun r => r.flows col)).sum)
        ∧ bar.turn = some ((weekBars.map (fun r => r.turn)).sum /
            (weekBars.length : ℚ))
        ∧ bar.peTTM = some ((weekBars.getLast weekBars_ne_nil).peTTM)
        ∧ bar.pbMRQ = some ((weekBars.getLast weekBars_ne_nil).pbMRQ)
        ∧ bar.mkt_cap = some ((weekBars.getLast weekBars_ne_nil).mkt_cap)
        ∧ bar.adjustFactor =
            some ((weekBars.getLast weekBars_ne_nil).adjustFactor))
    ∧ (∀ bar, (weekKey ⟨2024, 3, 4⟩, bar) ∉ resampleW [emptyCloseBar])
    ∧ (∀ bar, (monthKey ⟨2024, 3, 4⟩, bar) ∉ resampleM [emptyCloseBar])
    ∧ weekKey ⟨2024, 3, 4⟩ = weekKey ⟨2024, 3, 8⟩
    ∧ weekKey ⟨2024, 3, 8⟩ ≠ weekKey ⟨2024, 3, 9⟩ := by
  refine ⟨weekBars_ne_nil, ?_, ?_, ?_, by decide, by decide⟩
  · exact c5_resample_agg_rules.2.1 weekBars weekBars_ne_nil
  · exact c5_resample_agg_rules.2.2.1 [emptyCloseBar] (weekKey ⟨2024, 3, 4⟩)
      (by intro r hr _; rw [List.mem_singleton] at hr; subst hr; rfl)
  · exact c5_resample_agg_rules.2.2.2 [emptyCloseBar] (monthKey ⟨2024, 3, 4⟩)
      (by intro r hr _; rw [List.mem_singleton] at hr; subst hr; rfl)

/-! ## Indicator Engine failure isolation
(merge_data.py, calculate_indicators lines 60-109, and schema completion in
main, lines 327-333)

A frame is a row count and a set of named columns (a pandas DataFrame
restricted to what calculate_indicators touches).  Each pandas_ta call
(`df.ta.macd`, `df.ta.kdj`, ...) is an external library routine (an excluded
collaborator), modelled as an opaque function that either returns its
column(s), returns nothing (`pandas_ta` returning None), or raises
(`Except.error`).  Each numbered block of calculate_indicators is one
`try/except: pass` region of the source: MACD, KDJ, RSI and BOLL each have
their own region, while CCI and ATR share a single region (block 7), and the
moving-average blocks 1-2 are not guarded at all.
-/

structure Frame where
  n : Nat
  cols : List (String × List (Option ℚ))

def colOf (df : Frame) (name : String) : List (Option ℚ) :=
  (df.cols.lookup name).getD []

def closeCol (df : Frame) : List (Option ℚ) := colOf df "close"
def highCol (df : Frame) : List (Option ℚ) := colOf df "high"
def lowCol (df : Frame) : List (Option ℚ) := colOf df "low"
def volumeCol (df : Frame) : List (Option ℚ) := colOf df "volume"

/-- `df[name] = v`: overwrite the column if present, else append it. -/
def upsertCol : List (String × List (Option ℚ)) → String → List (Option ℚ) →
    List (String × List (Option ℚ))
  | [], name, v => [(name, v)]
  | (n', v') :: rest, name, v =>
    if n' = name then (name, v) :: rest else (n', v') :: upsertCol rest name v

def setCol (df : Frame) (name : String) (v : List (Option ℚ)) : Frame :=
  { df with cols := upsertCol df.cols name v }

/-- The pandas_ta indicator routines used by calculate_indicators. `macd`,
`kdj` and `bbands` may also return None (`.ok none`); `bbands`'s value is the
(lower band, upper band) pair the code reads from iloc columns 0 and 2. -/
structure TaLib where
  macd : List (Option ℚ) →
    Except Unit (Option (List (Option ℚ) × List (Option ℚ) × List (Option ℚ)))
  kdj : List (Option ℚ) → List (Option ℚ) → List (Option ℚ) →
    Except Unit (Option (List (Option ℚ) × List (Option ℚ) × List (Option ℚ)))
  rsi : List (Option ℚ) → Nat → Except Unit (List (Option ℚ))
  bbands : List (Option ℚ) →
    Except Unit (Option (List (Option ℚ) × List (Option ℚ)))
  cci : List (Option ℚ) → List (Option ℚ) → List (Option ℚ) →
    Except Unit (List (Option ℚ))
  atr : List (Option ℚ) → List (Option ℚ) → List (Option ℚ) →
    Except Unit (List (Option ℚ))

/-- Block 1: price moving averages, windows and column names. -/
def maPairs : List (Nat × String) :=
  [(5, "ma5"), (10, "ma10"), (20, "ma20"), (60, "ma60"), (120, "ma120"),
   (250, "ma250")]

/-- Block 2: volume moving averages. -/
def volMaPairs : List (Nat × String) :=
  [(5, "vol_ma5"), (10, "vol_ma10"), (20, "vol_ma20"), (30, "vol_ma30")]

def maStage (df : Frame) : Frame :=
  maPairs.foldl (fun d p => setCol d p.2 (rollingMean p.1 (closeCol d))) df

def volMaStage (df : Frame) : Frame :=
  volMaPairs.foldl (fun d p => setCol d p.2 (rollingMean p.1 (volumeCol d))) df

/-- Block 3 (its own try/except): MACD; on error or a None result no column
is assigned. -/
def macdStage (ta : TaLib) (df : Frame) : Frame :=
  match ta.macd (closeCol df) with
  | .error _ => df
  | .ok none => df
  | .ok (some (a, b, c)) => setCol (setCol (setCol df "dif" a) "macd" b) "dea" c

/-- Block 4 (its own try/except): KDJ. -/
def kdjStage (ta : TaLib) (df : Frame) : Frame :=
  match ta.kdj (highCol df) (lowCol df) (closeCol df) with
  | .error _ => df
  | .ok none => df
  | .ok (some (k, d, j)) => setCol (setCol (setCol df "k" k) "d" d) "j" j

/-- Third assignment of block 5: `df['rsi24'] = df.ta.rsi(length=24)`. -/
def rsiStage24 (ta : TaLib) (df : Frame) : Frame :=
  match ta.rsi (closeCol df) 24 with
  | .error _ => df
  | .ok v24 => setCol df "rsi24" v24

/-- Second and third assignments of block 5. -/
def rsiStage12 (ta : TaLib) (df : Frame) : Frame :=
  match ta.rsi (closeCol df) 12 with
  | .error _ => df
  | .ok v12 => rsiStage24 ta (setCol df "rsi12" v12)

/-- Block 5 (one try/except around three sequential assignments): RSI 6, 12,
24; an error in a later call keeps the earlier assignments. -/
def rsiStage (ta : TaLib) (df : Frame) : Frame :=
  match ta.rsi (closeCol df) 6 with
  | .error _ => df
  | .ok v6 => rsiStage12 ta (setCol df "rsi6" v6)

/-- Block 6 (its own try/except): Bollinger bands. -/
def bollStage (ta : TaLib) (df : Frame) : Frame :=
  match ta.bbands (closeCol df) with
  | .error _ => df
  | .ok none => df
  | .ok (some (lb, up)) => setCol (setCol df "boll_lb" lb) "boll_up" up

/-- Second assignment of block 7: `df['atr'] = df.ta.atr(length=14)`. -/
def atrPart (ta : TaLib) (df : Frame) : Frame :=
  match ta.atr (highCol df) (lowCol df) (closeCol df) with
  | .error _ => df
  | .ok va => setCol df "atr" va

/-- Block 7 (one try/except around both assignments): CCI then ATR; a CCI
error skips ATR as well, an ATR error keeps the CCI assignment. -/
def cciAtrStage (ta : TaLib) (df : Frame) : Frame :=
  match ta.cci (highCol df) (lowCol df) (closeCol df) with
  | .error _ => df
  | .ok vc => atrPart ta (setCol df "cci" vc)

/-- calculate_indicators: the seven blocks in source order. -/
def calculate_indicators (ta : TaLib) (df : Frame) : Frame :=
  cciAtrStage ta (bollStage ta (rsiStage ta (kdjStage ta
    (macdStage ta (volMaStage (maStage df))))))

/-- Schema completion of main (lines 327-333): every schema column, in
order; a column the frame lacks becomes an all-missing column of the frame's
row count. -/
def completeCols (schema : List String) (df : Frame) :
    List (String × List (Option ℚ)) :=
  schema.map (fun c => (c, (df.cols.lookup c).getD (List.replicate df.n none)))

/-- The daily pipeline from indicator computation to the written columns. -/
def dailyPipelineCols (ta : TaLib) (schema : List String) (df : Frame) :
    List (String × List (Option ℚ)) :=
  completeCols schema (calculate_indicators ta df)

/-! ### Frame lemmas -/

theorem lookup_pair_cons (k n : String) (v : List (Option ℚ))
    (rest : List (String × List (Option ℚ))) :
    List.lookup k ((n, v) :: rest) = if k = n then some v else List.lookup k rest := by
  rw [List.lookup_cons]
  by_cases h : k = n
  · rw [if_pos h, beq_iff_eq.mpr h]
  · rw [if_neg h, beq_eq_false_iff_ne.mpr h]

theorem lookup_upsert_self (name : String) (v : List (Option ℚ)) :
    ∀ cols : List (String × List (Option ℚ)),
      (upsertCol cols name v).lookup name = some v := by
  intro cols
  induction cols with
  | nil =>
    rw [upsertCol, lookup_pair_cons, if_pos rfl]
  | cons p cols ih =>
    obtain ⟨n', v'⟩ := p
    by_cases h : n' = name
    · rw [upsertCol, if_pos h, lookup_pair_cons, if_pos rfl]
    · rw [upsertCol, if_neg h, lookup_pair_cons, if_neg (fun he => h he.symm), ih]

theorem lookup_upsert_ne (name name' : String) (v : List (Option ℚ))
    (h : name' ≠ name) :
    ∀ cols : List (String × List (Option ℚ)),
      (upsertCol cols name v).lookup name' = cols.lookup name' := by
  intro cols
  induction cols with
  | nil =>
    rw [upsertCol, lookup_pair_cons, if_neg h]
  | cons p cols ih =>
    obtain ⟨n', v'⟩ := p
    by_cases he : n' = name
    · rw [upsertCol, if_pos he, lookup_pair_cons, if_neg h, lookup_pair_cons,
        if_neg (fun hx => h (hx.trans he))]
    · rw [upsertCol, if_neg he, lookup_pair_cons, lookup_pair_cons, ih]

theorem lookup_setCol_self (df : Frame) (name : String) (v : List (Option ℚ)) :
    (setCol df name v).cols.lookup name = some v :=
  lookup_upsert_self name v df.cols

theorem lookup_setCol_ne (df : Frame) (name name' : String) (v : List (Option ℚ))
    (h : name' ≠ name) :
    (setCol df name v).cols.lookup name' = df.cols.lookup name' :=
  lookup_upsert_ne name name' v h df.cols

theorem n_setCol (df : Frame) (name : String) (v : List (Option ℚ)) :
    (setCol df name v).n = df.n := rfl

theorem colOf_setCol_ne (df : Frame) (name name' : String) (v : List (Option ℚ))
    (h : name' ≠ name) : colOf (setCol df name v) name' = colOf df name' := by
  rw [colOf, colOf, lookup_setCol_ne df name name' v h]

theorem lookup_foldl_ne (f : Frame → Nat × String → List (Option ℚ)) :
    ∀ (ps : List (Nat × String)) (df : Frame) (name : String),
      (∀ p ∈ ps, name ≠ p.2) →
      (ps.foldl (fun d p => setCol d p.2 (f d p)) df).cols.lookup name =
        df.cols.lookup name := by
  intro ps
  induction ps with
  | nil => intro df name _; rfl
  | cons p ps ih =>
    intro df name h
    rw [List.foldl_cons, ih _ name (fun q hq => h q (List.mem_cons_of_mem p hq)),
      lookup_setCol_ne df p.2 name (f df p) (h p (List.mem_cons_self p ps))]

theorem n_foldl (f : Frame → Nat × String → List (Option ℚ)) :
    ∀ (ps : List (Nat × String)) (df : Frame),
      (ps.foldl (fun d p => setCol d p.2 (f d p)) df).n = df.n := by
  intro ps
  induction ps with
  | nil => intro df; rfl
  | cons p ps ih =>
    intro df
    rw [List.foldl_cons, ih]
    rfl

theorem lookup_maStage_ne (df : Frame) (name : String)
    (h : ∀ p ∈ maPairs, name ≠ p.2) :
    (maStage df).cols.lookup name = df.cols.lookup name :=
  lookup_foldl_ne _ maPairs df name h

theorem lookup_volMaStage_ne (df : Frame) (name : String)
    (h : ∀ p ∈ volMaPairs, name ≠ p.2) :
    (volMaStage df).cols.lookup name = df.cols.lookup name :=
  lookup_foldl_ne _ volMaPairs df name h

theorem lookup_macdStage_ne (ta : TaLib) (df : Frame) (name : String)
    (h1 : name ≠ "dif") (h2 : name ≠ "macd") (h3 : name ≠ "dea") :
    (macdStage ta df).cols.lookup name = df.cols.lookup name := by
  rw [macdStage]
  cases ta.macd (closeCol df) with
  | error e => rfl
  | ok o =>
    cases o with
    | none => rfl
    | some t =>
      obtain ⟨a, b, c⟩ := t
      show (setCol (setCol (setCol df "dif" a) "macd" b) "dea" c).cols.lookup name
        = df.cols.lookup name
      rw [lookup_setCol_ne _ _ _ _ h3, lookup_setCol_ne _ _ _ _ h2,
        lookup_setCol_ne _ _ _ _ h1]

theorem lookup_kdjStage_ne (ta : TaLib) (df : Frame) (name : String)
    (h1 : name ≠ "k") (h2 : name ≠ "d") (h3 : name ≠ "j") :
    (kdjStage ta df).cols.lookup name = df.cols.lookup name := by
  rw [kdjStage]
  cases ta.kdj (highCol df) (lowCol df) (closeCol df) with
  | error e => rfl
  | ok o =>
    cases o with
    | none => rfl
    | some t =>
      obtain ⟨a, b, c⟩ := t
      show (setCol (setCol (setCol df "k" a) "d" b) "j" c).cols.lookup name
        = df.cols.lookup name
      rw [lookup_setCol_ne _ _ _ _ h3, lookup_setCol_ne _ _ _ _ h2,
        lookup_setCol_ne _ _ _ _ h1]

theorem lookup_rsiStage24_ne (ta : TaLib) (df : Frame) (name : String)
    (h3 : name ≠ "rsi24") :
    (rsiStage24 ta df).cols.lookup name = df.cols.lookup name := by
  rw [rsiStage24]
  cases ta.rsi (closeCol df) 24 with
  | error e => rfl
  | ok v24 =>
    show (setCol df "rsi24" v24).cols.lookup name = df.cols.lookup name
    exact lookup_setCol_ne df _ name v24 h3

theorem lookup_rsiStage12_ne (ta : TaLib) (df : Frame) (name : String)
    (h2 : name ≠ "rsi12") (h3 : name ≠ "rsi24") :
    (rsiStage12 ta df).cols.lookup name = df.cols.lookup name := by
  rw [rsiStage12]
  cases ta.rsi (closeCol df) 12 with
  | error e => rfl
  | ok v12 =>
    show (rsiStage24 ta (setCol df "rsi12" v12)).cols.lookup name
      = df.cols.lookup name
    rw [lookup_rsiStage24_ne _ _ _ h3, lookup_setCol_ne _ _ _ _ h2]

theorem lookup_rsiStage_ne (ta : TaLib) (df : Frame) (name : String)
    (h1 : name ≠ "rsi6") (h2 : name ≠ "rsi12") (h3 : name ≠ "rsi24") :
    (rsiStage ta df).cols.lookup name = df.cols.lookup name := by
  rw [rsiStage]
  cases ta.rsi (closeCol df) 6 with
  | error e => rfl
  | ok v6 =>
    show (rsiStage12 ta (setCol df "rsi6" v6)).cols.lookup name
      = df.cols.lookup name
    rw [lookup_rsiStage12_ne _ _ _ h2 h3, lookup_setCol_ne _ _ _ _ h1]

theorem lookup_bollStage_ne (ta : TaLib) (df : Frame) (name : String)
    (h1 : name ≠ "boll_lb") (h2 : name ≠ "boll_up") :
    (bollStage ta df).cols.lookup name = df.cols.lookup name := by
  rw [bollStage]
  cases ta.bbands (closeCol df) with
  | error e => rfl
  | ok o =>
    cases o with
    | none => rfl
    | some t =>
      obtain ⟨lb, up⟩ := t
      show (setCol (setCol df "boll_lb" lb) "boll_up" up).cols.lookup name
        = df.cols.lookup name
      rw [lookup_setCol_ne _ _ _ _ h2, lookup_setCol_ne _ _ _ _ h1]

theorem lookup_atrPart_ne (ta : TaLib) (df : Frame) (name : String)
    (h2 : name ≠ "atr") :
    (atrPart ta df).cols.lookup name = df.cols.lookup name := by
  rw [atrPart]
  cases ta.atr (highCol df) (lowCol df) (closeCol df) with
  | error e => rfl
  | ok va =>
    show (setCol df "atr" va).cols.lookup name = df.cols.lookup name
    exact lookup_setCol_ne df _ name va h2

theorem lookup_cciAtrStage_ne (ta : TaLib) (df : Frame) (name : String)
    (h1 : name ≠ "cci") (h2 : name ≠ "atr") :
    (cciAtrStage ta df).cols.lookup name = df.cols.lookup name := by
  rw [cciAtrStage]
  cases ta.cci (highCol df) (lowCol df) (closeCol df) with
  | error e => rfl
  | ok vc =>
    show (atrPart ta (setCol df "cci" vc)).cols.lookup name = df.cols.lookup name
    rw [lookup_atrPart_ne _ _ _ h2, lookup_setCol_ne _ _ _ _ h1]

theorem n_macdStage (ta : TaLib) (df : Frame) : (macdStage ta df).n = df.n := by
  rw [macdStage]
  cases ta.macd (closeCol df) with
  | error e => rfl
  | ok o => cases o with
    | none => rfl
    | some t => obtain ⟨a, b, c⟩ := t; rfl

theorem n_kdjStage (ta : TaLib) (df : Frame) : (kdjStage ta df).n = df.n := by
  rw [kdjStage]
  cases ta.kdj (highCol df) (lowCol df) (closeCol df) with
  | error e => rfl
  | ok o => cases o with
    | none => rfl
    | some t => obtain ⟨a, b, c⟩ := t; rfl

theorem n_rsiStage24 (ta : TaLib) (df : Frame) : (rsiStage24 ta df).n = df.n := by
  rw [rsiStage24]
  cases ta.rsi (closeCol df) 24 with
  | error e => rfl
  | ok v24 => rfl

theorem n_rsiStage12 (ta : TaLib) (df : Frame) : (rsiStage12 ta df).n = df.n := by
  rw [rsiStage12]
  cases ta.rsi (closeCol df) 12 with
  | error e => rfl
  | ok v12 =>
    show (rsiStage24 ta (setCol df "rsi12" v12)).n = df.n
    rw [n_rsiStage24]
    rfl

theorem n_rsiStage (ta : TaLib) (df : Frame) : (rsiStage ta df).n = df.n := by
  rw [rsiStage]
  cases ta.rsi (closeCol df) 6 with
  | error e => rfl
  | ok v6 =>
    show (rsiStage12 ta (setCol df "rsi6" v6)).n = df.n
    rw [n_rsiStage12]
    rfl

theorem n_bollStage (ta : TaLib) (df : Frame) : (bollStage ta df).n = df.n := by
  rw [bollStage]
  cases ta.bbands (closeCol df) with
  | error e => rfl
  | ok o => cases o with
    | none => rfl
    | some t => obtain ⟨lb, up⟩ := t; rfl

theorem n_atrPart (ta : TaLib) (df : Frame) : (atrPart ta df).n = df.n := by
  rw [atrPart]
  cases ta.atr (highCol df) (lowCol df) (closeCol df) with
  | error e => rfl
  | ok va => rfl

theorem n_cciAtrStage (ta : TaLib) (df : Frame) : (cciAtrStage ta df).n = df.n := by
  rw [cciAtrStage]
  cases ta.cci (highCol df) (lowCol df) (closeCol df) with
  | error e => rfl
  | ok vc =>
    show (atrPart ta (setCol df "cci" vc)).n = df.n
    rw [n_atrPart]
    rfl

theorem n_maStage (df : Frame) : (maStage df).n = df.n :=
  n_foldl _ maPairs df

theorem n_volMaStage (df : Frame) : (volMaStage df).n = df.n :=
  n_foldl _ volMaPairs df

theorem n_calc (ta : TaLib) (df : Frame) :
    (calculate_indicators ta df).n = df.n := by
  rw [calculate_indicators, n_cciAtrStage, n_bollStage, n_rsiStage, n_kdjStage,
    n_macdStage, n_volMaStage, n_maStage]

/-- All column names calculate_indicators may assign. -/
def indicatorCols : List String :=
  ["ma5", "ma10", "ma20", "ma60", "ma120", "ma250", "vol_ma5", "vol_ma10",
   "vol_ma20", "vol_ma30", "dif", "macd", "dea", "k", "d", "j", "rsi6",
   "rsi12", "rsi24", "boll_lb", "boll_up", "cci", "atr"]

theorem maPairs_sub : ∀ p ∈ maPairs, p.2 ∈ indicatorCols := by decide

theorem volMaPairs_sub : ∀ p ∈ volMaPairs, p.2 ∈ indicatorCols := by decide

theorem lookup_calc_ne (ta : TaLib) (df : Frame) (name : String)
    (h : name ∉ indicatorCols) :
    (calculate_indicators ta df).cols.lookup name = df.cols.lookup name := by
  have hne : ∀ s ∈ indicatorCols, name ≠ s := fun s hs he => h (he ▸ hs)
  rw [calculate_indicators,
    lookup_cciAtrStage_ne _ _ _ (hne "cci" (by decide)) (hne "atr" (by decide)),
    lookup_bollStage_ne _ _ _ (hne "boll_lb" (by decide))
      (hne "boll_up" (by decide)),
    lookup_rsiStage_ne _ _ _ (hne "rsi6" (by decide)) (hne "rsi12" (by decide))
      (hne "rsi24" (by decide)),
    lookup_kdjStage_ne _ _ _ (hne "k" (by decide)) (hne "d" (by decide))
      (hne "j" (by decide)),
    lookup_macdStage_ne _ _ _ (hne "dif" (by decide)) (hne "macd" (by decide))
      (hne "dea" (by decide)),
    lookup_volMaStage_ne _ _ (fun p hp => hne p.2 (volMaPairs_sub p hp)),
    lookup_maStage_ne _ _ (fun p hp => hne p.2 (maPairs_sub p hp))]

theorem colOf_calc_base (ta : TaLib) (df : Frame) (name : String)
    (h : name ∉ indicatorCols) :
    colOf (calculate_indicators ta df) name = colOf df name := by
  rw [colOf, colOf, lookup_calc_ne ta df name h]

theorem lookup_macdStage_pos (ta : TaLib) (df : Frame)
    (a b c : List (Option ℚ)) (hm : ta.macd (closeCol df) = .ok (some (a, b, c))) :
    (macdStage ta df).cols.lookup "dif" = some a
    ∧ (macdStage ta df).cols.lookup "macd" = some b
    ∧ (macdStage ta df).cols.lookup "dea" = some c := by
  refine ⟨?_, ?_, ?_⟩ <;> rw [macdStage, hm]
  · show (setCol (setCol (setCol df "dif" a) "macd" b) "dea" c).cols.lookup "dif"
      = some a
    rw [lookup_setCol_ne _ _ _ _ (by decide), lookup_setCol_ne _ _ _ _ (by decide),
      lookup_setCol_self]
  · show (setCol (setCol (setCol df "dif" a) "macd" b) "dea" c).cols.lookup "macd"
      = some b
    rw [lookup_setCol_ne _ _ _ _ (by decide), lookup_setCol_self]
  · show (setCol (setCol (setCol df "dif" a) "macd" b) "dea" c).cols.lookup "dea"
      = some c
    rw [lookup_setCol_self]

theorem lookup_kdjStage_pos (ta : TaLib) (df : Frame)
    (a b c : List (Option ℚ))
    (hm : ta.kdj (highCol df) (lowCol df) (closeCol df) = .ok (some (a, b, c))) :
    (kdjStage ta df).cols.lookup "k" = some a
    ∧ (kdjStage ta df).cols.lookup "d" = some b
    ∧ (kdjStage ta df).cols.lookup "j" = some c := by
  refine ⟨?_, ?_, ?_⟩ <;> rw [kdjStage, hm]
  · show (setCol (setCol (setCol df "k" a) "d" b) "j" c).cols.lookup "k" = some a
    rw [lookup_setCol_ne _ _ _ _ (by decide), lookup_setCol_ne _ _ _ _ (by decide),
      lookup_setCol_self]
  · show (setCol (setCol (setCol df "k" a) "d" b) "j" c).cols.lookup "d" = some b
    rw [lookup_setCol_ne _ _ _ _ (by decide), lookup_setCol_self]
  · show (setCol (setCol (setCol df "k" a) "d" b) "j" c).cols.lookup "j" = some c
    rw [lookup_setCol_self]

theorem lookup_bollStage_pos (ta : TaLib) (df : Frame)
    (lb up : List (Option ℚ)) (hm : ta.bbands (closeCol df) = .ok (some (lb, up))) :
    (bollStage ta df).cols.lookup "boll_lb" = some lb
    ∧ (bollStage ta df).cols.lookup "boll_up" = some up := by
  refine ⟨?_, ?_⟩ <;> rw [bollStage, hm]
  · show (setCol (setCol df "boll_lb" lb) "boll_up" up).cols.lookup "boll_lb"
      = some lb
    rw [lookup_setCol_ne _ _ _ _ (by decide), lookup_setCol_self]
  · show (setCol (setCol df "boll_lb" lb) "boll_up" up).cols.lookup "boll_up"
      = some up
    rw [lookup_setCol_self]

theorem lookup_rsiStage_pos (ta : TaLib) (df : Frame)
    (v6 v12 v24 : List (Option ℚ))
    (h6 : ta.rsi (closeCol df) 6 = .ok v6)
    (h12 : ta.rsi (closeCol df) 12 = .ok v12)
    (h24 : ta.rsi (closeCol df) 24 = .ok v24) :
    (rsiStage ta df).cols.lookup "rsi6" = some v6
    ∧ (rsiStage ta df).cols.lookup "rsi12" = some v12
    ∧ (rsiStage ta df).cols.lookup "rsi24" = some v24 := by
  have hc1 : closeCol (setCol df "rsi6" v6) = closeCol df :=
    colOf_setCol_ne df _ _ _ (by decide)
  have hc2 : closeCol (setCol (setCol df "rsi6" v6) "rsi12" v12) = closeCol df := by
    rw [show closeCol (setCol (setCol df "rsi6" v6) "rsi12" v12)
        = closeCol (setCol df "rsi6" v6) from colOf_setCol_ne _ _ _ _ (by decide),
      hc1]
  refine ⟨?_, ?_, ?_⟩
  · rw [rsiStage, h6]
    show (rsiStage12 ta (setCol df "rsi6" v6)).cols.lookup "rsi6" = some v6
    rw [lookup_rsiStage12_ne _ _ _ (by decide) (by decide), lookup_setCol_self]
  · rw [rsiStage, h6]
    show (rsiStage12 ta (setCol df "rsi6" v6)).cols.lookup "rsi12" = some v12
    rw [rsiStage12, hc1, h12]
    show (rsiStage24 ta (setCol (setCol df "rsi6" v6) "rsi12" v12)).cols.lookup
      "rsi12" = some v12
    rw [lookup_rsiStage24_ne _ _ _ (by decide), lookup_setCol_self]
  · rw [rsiStage, h6]
    show (rsiStage12 ta (setCol df "rsi6" v6)).cols.lookup "rsi24" = some v24
    rw [rsiStage12, hc1, h12]
    show (rsiStage24 ta (setCol (setCol df "rsi6" v6) "rsi12" v12)).cols.lookup
      "rsi24" = some v24
    rw [rsiStage24, hc2, h24]
    show (setCol (setCol (setCol df "rsi6" v6) "rsi12" v12) "rsi24"
      v24).cols.lookup "rsi24" = some v24
    rw [lookup_setCol_self]

theorem cciAtrStage_error (ta : TaLib) (df : Frame) (err : Unit)
    (hc : ta.cci (highCol df) (lowCol df) (closeCol df) = .error err) :
    cciAtrStage ta df = df := by
  rw [cciAtrStage, hc]

theorem macdStage_error (ta : TaLib) (df : Frame) (err : Unit)
    (hm : ta.macd (closeCol df) = .error err) : macdStage ta df = df := by
  rw [macdStage, hm]

theorem kdjStage_error (ta : TaLib) (df : Frame) (err : Unit)
    (hm : ta.kdj (highCol df) (lowCol df) (closeCol df) = .error err) :
    kdjStage ta df = df := by
  rw [kdjStage, hm]

theorem rsiStage_error (ta : TaLib) (df : Frame) (err : Unit)
    (hm : ta.rsi (closeCol df) 6 = .error err) : rsiStage ta df = df := by
  rw [rsiStage, hm]

theorem bollStage_error (ta : TaLib) (df : Frame) (err : Unit)
    (hm : ta.bbands (closeCol df) = .error err) : bollStage ta df = df := by
  rw [bollStage, hm]

theorem lookup_cciAtrStage_pos (ta : TaLib) (df : Frame)
    (vc va : List (Option ℚ))
    (hc : ta.cci (highCol df) (lowCol df) (closeCol df) = .ok vc)
    (ha : ta.atr (highCol df) (lowCol df) (closeCol df) = .ok va) :
    (cciAtrStage ta df).cols.lookup "cci" = some vc
    ∧ (cciAtrStage ta df).cols.lookup "atr" = some va := by
  have hH : highCol (setCol df "cci" vc) = highCol df :=
    colOf_setCol_ne df _ _ _ (by decide)
  have hL : lowCol (setCol df "cci" vc) = lowCol df :=
    colOf_setCol_ne df _ _ _ (by decide)
  have hC : closeCol (setCol df "cci" vc) = closeCol df :=
    colOf_setCol_ne df _ _ _ (by decide)
  refine ⟨?_, ?_⟩
  · rw [cciAtrStage, hc]
    show (atrPart ta (setCol df "cci" vc)).cols.lookup "cci" = some vc
    rw [lookup_atrPart_ne _ _ _ (by decide), lookup_setCol_self]
  · rw [cciAtrStage, hc]
    show (atrPart ta (setCol df "cci" vc)).cols.lookup "atr" = some va
    rw [atrPart, hH, hL, hC, ha]
    show (setCol (setCol df "cci" vc) "atr" va).cols.lookup "atr" = some va
    rw [lookup_setCol_self]

theorem lookup_calc_macd_family (ta : TaLib) (df : Frame) (name : String)
    (hname : name ∈ ["dif", "macd", "dea"]) :
    (calculate_indicators ta df).cols.lookup name
      = (macdStage ta (volMaStage (maStage df))).cols.lookup name := by
  have h3 : name = "dif" ∨ name = "macd" ∨ name = "dea" := by simpa using hname
  rw [calculate_indicators]
  rcases h3 with rfl | rfl | rfl <;>
    rw [lookup_cciAtrStage_ne _ _ _ (by decide) (by decide),
      lookup_bollStage_ne _ _ _ (by decide) (by decide),
      lookup_rsiStage_ne _ _ _ (by decide) (by decide) (by decide),
      lookup_kdjStage_ne _ _ _ (by decide) (by decide) (by decide)]

theorem lookup_calc_kdj_family (ta : TaLib) (df : Frame) (name : String)
    (hname : name ∈ ["k", "d", "j"]) :
    (calculate_indicators ta df).cols.lookup name
      = (kdjStage ta (macdStage ta (volMaStage (maStage df)))).cols.lookup name := by
  have h3 : name = "k" ∨ name = "d" ∨ name = "j" := by simpa using hname
  rw [calculate_indicators]
  rcases h3 with rfl | rfl | rfl <;>
    rw [lookup_cciAtrStage_ne _ _ _ (by decide) (by decide),
      lookup_bollStage_ne _ _ _ (by decide) (by decide),
      lookup_rsiStage_ne _ _ _ (by decide) (by decide) (by decide)]

theorem lookup_calc_rsi_family (ta : TaLib) (df : Frame) (name : String)
    (hname : name ∈ ["rsi6", "rsi12", "rsi24"]) :
    (calculate_indicators ta df).cols.lookup name
      = (rsiStage ta (kdjStage ta (macdStage ta
          (volMaStage (maStage df))))).cols.lookup name := by
  have h3 : name = "rsi6" ∨ name = "rsi12" ∨ name = "rsi24" := by simpa using hname
  rw [calculate_indicators]
  rcases h3 with rfl | rfl | rfl <;>
    rw [lookup_cciAtrStage_ne _ _ _ (by decide) (by decide),
      lookup_bollStage_ne _ _ _ (by decide) (by decide)]

theorem lookup_calc_boll_family (ta : TaLib) (df : Frame) (name : String)
    (hname : name ∈ ["boll_lb", "boll_up"]) :
    (calculate_indicators ta df).cols.lookup name
      = (bollStage ta (rsiStage ta (kdjStage ta (macdStage ta
          (volMaStage (maStage df)))))).cols.lookup name := by
  have h2 : name = "boll_lb" ∨ name = "boll_up" := by simpa using hname
  rw [calculate_indicators]
  rcases h2 with rfl | rfl <;>
    rw [lookup_cciAtrStage_ne _ _ _ (by decide) (by decide)]

/-- The column names assigned before block 7 (everything except cci/atr). -/
def prefixCols : List String :=
  ["ma5", "ma10", "ma20", "ma60", "ma120", "ma250", "vol_ma5", "vol_ma10",
   "vol_ma20", "vol_ma30", "dif", "macd", "dea", "k", "d", "j", "rsi6",
   "rsi12", "rsi24", "boll_lb", "boll_up"]

theorem maPairs_sub2 : ∀ p ∈ maPairs, p.2 ∈ prefixCols := by decide

theorem volMaPairs_sub2 : ∀ p ∈ volMaPairs, p.2 ∈ prefixCols := by decide

theorem lookup_prefix_ne (ta : TaLib) (df : Frame) (name : String)
    (h : name ∉ prefixCols) :
    (bollStage ta (rsiStage ta (kdjStage ta (macdStage ta
      (volMaStage (maStage df)))))).cols.lookup name = df.cols.lookup name := by
  have hne : ∀ s ∈ prefixCols, name ≠ s := fun s hs he => h (he ▸ hs)
  rw [lookup_bollStage_ne _ _ _ (hne "boll_lb" (by decide))
      (hne "boll_up" (by decide)),
    lookup_rsiStage_ne _ _ _ (hne "rsi6" (by decide)) (hne "rsi12" (by decide))
      (hne "rsi24" (by decide)),
    lookup_kdjStage_ne _ _ _ (hne "k" (by decide)) (hne "d" (by decide))
      (hne "j" (by decide)),
    lookup_macdStage_ne _ _ _ (hne "dif" (by decide)) (hne "macd" (by decide))
      (hne "dea" (by decide)),
    lookup_volMaStage_ne _ _ (fun p hp => hne p.2 (volMaPairs_sub2 p hp)),
    lookup_maStage_ne _ _ (fun p hp => hne p.2 (maPairs_sub2 p hp))]

theorem n_prefix (ta : TaLib) (df : Frame) :
    (bollStage ta (rsiStage ta (kdjStage ta (macdStage ta
      (volMaStage (maStage df)))))).n = df.n := by
  rw [n_bollStage, n_rsiStage, n_kdjStage, n_macdStage, n_volMaStage, n_maStage]

theorem lookup_completeCols (schema : List String) (df : Frame) (c : String)
    (hmem : c ∈ schema) :
    (completeCols schema df).lookup c =
      some ((df.cols.lookup c).getD (List.replicate df.n none)) := by
  induction schema with
  | nil => simp at hmem
  | cons a schema ih =>
    rw [completeCols, List.map_cons, lookup_pair_cons]
    by_cases hca : c = a
    · rw [if_pos hca]
      subst hca
      rfl
    · rw [if_neg hca]
      have hc : c ∈ schema := by
        rcases List.mem_cons.mp hmem with h' | h'
        · exact absurd h' hca
        · exact h'
      exact ih hc

/-! ### Claim C6 -/

/-- Concrete library behavior for the C6 counterexample: CCI raises while
ATR would succeed; MACD/KDJ/BOLL return None, RSI raises. -/
def taC : TaLib :=
  { macd := fun _ => .ok none
    kdj := fun _ _ _ => .ok none
    rsi := fun _ _ => .error ()
    bbands := fun _ => .ok none
    cci := fun _ _ _ => .error ()
    atr := fun _ _ _ => .ok [some 3] }

/-- A one-row frame with only base columns. -/
def dfC : Frame :=
  ⟨1, [("close", [some 1]), ("high", [some 1]), ("low", [some 1]),
       ("volume", [some 1])]⟩

/-- The same frame with a stale cci column from a previous run. -/
def dfB : Frame :=
  ⟨1, [("close", [some 1]), ("high", [some 1]), ("low", [some 1]),
       ("volume", [some 1]), ("cci", [some 9])]⟩

def schemaC : List String := ["cci", "atr"]

/-- Counterexample to C6 as stated: on `dfC` the CCI computation raises while
the ATR computation succeeds with column [some 3]; because CCI and ATR share
one try/except block, the pipeline's atr column is nonetheless all-missing —
a family other than the failing one is not computed.  And on `dfB`, which
carries a stale cci column from the previous run, the failed family's column
is the stale [some 9], not missing-value. -/
theorem c6_counterexample :
    taC.cci (highCol dfC) (lowCol dfC) (closeCol dfC) = .error ()
    ∧ taC.atr (highCol dfC) (lowCol dfC) (closeCol dfC) = .ok [some 3]
    ∧ (dailyPipelineCols taC schemaC dfC).lookup "atr" = some [none]
    ∧ (dailyPipelineCols taC schemaC dfC).lookup "atr" ≠ some [some 3]
    ∧ (dailyPipelineCols taC schemaC dfB).lookup "cci" = some [some 9]
    ∧ (dailyPipelineCols taC schemaC dfB).lookup "cci" ≠ some [none] := by
  refine ⟨rfl, rfl, ?_, ?_, ?_, ?_⟩ <;> decide

/-- C6 (amended): isolation of indicator-family failures, parameterised over
the library and frame.  Each guarded family's pipeline columns depend only on
that family's own library call: when the MACD, KDJ, RSI or Bollinger call
raises (no matter what the other calls do), that family's columns — and only
them — degrade to all-missing, provided the frame carries no stale columns of
those names, while every other family's columns, including CCI and ATR,
still carry their computed values; CCI and ATR share one guard, so a CCI
raise also leaves ATR all-missing whatever the ATR routine would return, and
both are computed when both calls succeed. -/
theorem c6_isolated_families (ta : TaLib) (df : Frame) (schema : List String) :
    (∀ err, ta.macd (closeCol df) = .error err →
      ∀ name ∈ ["dif", "macd", "dea"], name ∈ schema →
        df.cols.lookup name = none →
        (dailyPipelineCols ta schema df).lookup name
          = some (List.replicate df.n none))
    ∧ (∀ a b c, ta.macd (closeCol df) = .ok (some (a, b, c)) →
        ("dif" ∈ schema → (dailyPipelineCols ta schema df).lookup "dif" = some a)
        ∧ ("macd" ∈ schema →
            (dailyPipelineCols ta schema df).lookup "macd" = some b)
        ∧ ("dea" ∈ schema →
            (dailyPipelineCols ta schema df).lookup "dea" = some c))
    ∧ (∀ err, ta.kdj (highCol df) (lowCol df) (closeCol df) = .error err →
      ∀ name ∈ ["k", "d", "j"], name ∈ schema →
        df.cols.lookup name = none →
        (dailyPipelineCols ta schema df).lookup name
          = some (List.replicate df.n none))
    ∧ (∀ a b c, ta.kdj (highCol df) (lowCol df) (closeCol df)
          = .ok (some (a, b, c)) →
        ("k" ∈ schema → (dailyPipelineCols ta schema df).lookup "k" = some a)
        ∧ ("d" ∈ schema → (dailyPipelineCols ta schema df).lookup "d" = some b)
        ∧ ("j" ∈ schema → (dailyPipelineCols ta schema df).lookup "j" = some c))
    ∧ (∀ err, ta.rsi (closeCol df) 6 = .error err →
      ∀ name ∈ ["rsi6", "rsi12", "rsi24"], name ∈ schema →
        df.cols.lookup name = none →
        (dailyPipelineCols ta schema df).lookup name
          = some (List.replicate df.n none))
    ∧ (∀ v6 v12 v24, ta.rsi (closeCol df) 6 = .ok v6 →
        ta.rsi (closeCol df) 12 = .ok v12 → ta.rsi (closeCol df) 24 = .ok v24 →
        ("rsi6" ∈ schema →
            (dailyPipelineCols ta schema df).lookup "rsi6" = some v6)
        ∧ ("rsi12" ∈ schema →
            (dailyPipelineCols ta schema df).lookup "rsi12" = some v12)
        ∧ ("rsi24" ∈ schema →
            (dailyPipelineCols ta schema df).lookup "rsi24" = some v24))
    ∧ (∀ err, ta.bbands (closeCol df) = .error err →
      ∀ name ∈ ["boll_lb", "boll_up"], name ∈ schema →
        df.cols.lookup name = none →
        (dailyPipelineCols ta schema df).lookup name
          = some (List.replicate df.n none))
    ∧ (∀ lb up, ta.bbands (closeCol df) = .ok (some (lb, up)) →
        ("boll_lb" ∈ schema →
            (dailyPipelineCols ta schema df).lookup "boll_lb" = some lb)
        ∧ ("boll_up" ∈ schema →
            (dailyPipelineCols ta schema df).lookup "boll_up" = some up))
    ∧ (∀ err, ta.cci (highCol df) (lowCol df) (closeCol df) = .error err →
      ∀ name ∈ ["cci", "atr"], name ∈ schema →
        df.cols.lookup name = none →
        (dailyPipelineCols ta schema df).lookup name
          = some (List.replicate df.n none))
    ∧ (∀ vc va, ta.cci (highCol df) (lowCol df) (closeCol df) = .ok vc →
        ta.atr (highCol df) (lowCol df) (closeCol df) = .ok va →
        ("cci" ∈ schema →
            (dailyPipelineCols ta schema df).lookup "cci" = some vc)
        ∧ ("atr" ∈ schema →
            (dailyPipelineCols ta schema df).lookup "atr" = some va)) := by
  have hC0 : closeCol (volMaStage (maStage df)) = closeCol df := by
    show colOf _ "close" = colOf df "close"
    rw [colOf, colOf, lookup_volMaStage_ne _ _ (by decide),
      lookup_maStage_ne _ _ (by decide)]
  have hH0 : highCol (volMaStage (maStage df)) = highCol df := by
    show colOf _ "high" = colOf df "high"
    rw [colOf, colOf, lookup_volMaStage_ne _ _ (by decide),
      lookup_maStage_ne _ _ (by decide)]
  have hL0 : lowCol (volMaStage (maStage df)) = lowCol df := by
    show colOf _ "low" = colOf df "low"
    rw [colOf, colOf, lookup_volMaStage_ne _ _ (by decide),
      lookup_maStage_ne _ _ (by decide)]
  have hC1 : closeCol (macdStage ta (volMaStage (maStage df))) = closeCol df := by
    show colOf _ "close" = _
    rw [colOf, lookup_macdStage_ne _ _ _ (by decide) (by decide) (by decide)]
    exact hC0
  have hH1 : highCol (macdStage ta (volMaStage (maStage df))) = highCol df := by
    show colOf _ "high" = _
    rw [colOf, lookup_macdStage_ne _ _ _ (by decide) (by decide) (by decide)]
    exact hH0
  have hL1 : lowCol (macdStage ta (volMaStage (maStage df))) = lowCol df := by
    show colOf _ "low" = _
    rw [colOf, lookup_macdStage_ne _ _ _ (by decide) (by decide) (by decide)]
    exact hL0
  have hC2 : closeCol (kdjStage ta (macdStage ta (volMaStage (maStage df))))
      = closeCol df := by
    show colOf _ "close" = _
    rw [colOf, lookup_kdjStage_ne _ _ _ (by decide) (by decide) (by decide)]
    exact hC1
  have hH2 : highCol (kdjStage ta (macdStage ta (volMaStage (maStage df))))
      = highCol df := by
    show colOf _ "high" = _
    rw [colOf, lookup_kdjStage_ne _ _ _ (by decide) (by decide) (by decide)]
    exact hH1
  have hL2 : lowCol (kdjStage ta (macdStage ta (volMaStage (maStage df))))
      = lowCol df := by
    show colOf _ "low" = _
    rw [colOf, lookup_kdjStage_ne _ _ _ (by decide) (by decide) (by decide)]
    exact hL1
  have hC3 : closeCol (rsiStage ta (kdjStage ta (macdStage ta
      (volMaStage (maStage df))))) = closeCol df := by
    show colOf _ "close" = _
    rw [colOf, lookup_rsiStage_ne _ _ _ (by decide) (by decide) (by decide)]
    exact hC2
  have hH3 : highCol (rsiStage ta (kdjStage ta (macdStage ta
      (volMaStage (maStage df))))) = highCol df := by
    show colOf _ "high" = _
    rw [colOf, lookup_rsiStage_ne _ _ _ (by decide) (by decide) (by decide)]
    exact hH2
  have hL3 : lowCol (rsiStage ta (kdjStage ta (macdStage ta
      (volMaStage (maStage df))))) = lowCol df := by
    show colOf _ "low" = _
    rw [colOf, lookup_rsiStage_ne _ _ _ (by decide) (by decide) (by decide)]
    exact hL2
  have hC4 : closeCol (bollStage ta (rsiStage ta (kdjStage ta (macdStage ta
      (volMaStage (maStage df)))))) = closeCol df := by
    show colOf _ "close" = _
    rw [colOf, lookup_bollStage_ne _ _ _ (by decide) (by decide)]
    exact hC3
  have hH4 : highCol (bollStage ta (rsiStage ta (kdjStage ta (macdStage ta
      (volMaStage (maStage df)))))) = highCol df := by
    show colOf _ "high" = _
    rw [colOf, lookup_bollStage_ne _ _ _ (by decide) (by decide)]
    exact hH3
  have hL4 : lowCol (bollStage ta (rsiStage ta (kdjStage ta (macdStage ta
      (volMaStage (maStage df)))))) = lowCol df := by
    show colOf _ "low" = _
    rw [colOf, lookup_bollStage_ne _ _ _ (by decide) (by decide)]
    exact hL3
  refine ⟨?_, ?_, ?_, ?_, ?_, ?_, ?_, ?_, ?_, ?_⟩
  · intro err hm name hname hmem hfresh
    have hm0 : ta.macd (closeCol (volMaStage (maStage df))) = .error err := by
      rw [hC0]
      exact hm
    have h3 : name = "dif" ∨ name = "macd" ∨ name = "dea" := by simpa using hname
    rcases h3 with rfl | rfl | rfl <;>
      rw [dailyPipelineCols, lookup_completeCols schema _ _ hmem,
        lookup_calc_macd_family ta df _ (by decide),
        macdStage_error ta _ err hm0,
        lookup_volMaStage_ne _ _ (by decide), lookup_maStage_ne _ _ (by decide),
        hfresh, n_calc]
    all_goals rfl
  · intro a b c hm
    have hm0 : ta.macd (closeCol (volMaStage (maStage df)))
        = .ok (some (a, b, c)) := by
      rw [hC0]
      exact hm
    have hpos := lookup_macdStage_pos ta _ a b c hm0
    refine ⟨?_, ?_, ?_⟩ <;> intro hmem
    · rw [dailyPipelineCols, lookup_completeCols schema _ "dif" hmem,
        lookup_calc_macd_family ta df "dif" (by decide), hpos.1]
      rfl
    · rw [dailyPipelineCols, lookup_completeCols schema _ "macd" hmem,
        lookup_calc_macd_family ta df "macd" (by decide), hpos.2.1]
      rfl
    · rw [dailyPipelineCols, lookup_completeCols schema _ "dea" hmem,
        lookup_calc_macd_family ta df "dea" (by decide), hpos.2.2]
      rfl
  · intro err hm name hname hmem hfresh
    have hm1 : ta.kdj (highCol (macdStage ta (volMaStage (maStage df))))
        (lowCol (macdStage ta (volMaStage (maStage df))))
        (closeCol (macdStage ta (volMaStage (maStage df)))) = .error err := by
      rw [hH1, hL1, hC1]
      exact hm
    have h3 : name = "k" ∨ name = "d" ∨ name = "j" := by simpa using hname
    rcases h3 with rfl | rfl | rfl <;>
      rw [dailyPipelineCols, lookup_completeCols schema _ _ hmem,
        lookup_calc_kdj_family ta df _ (by decide),
        kdjStage_error ta _ err hm1,
        lookup_macdStage_ne _ _ _ (by decide) (by decide) (by decide),
        lookup_volMaStage_ne _ _ (by decide), lookup_maStage_ne _ _ (by decide),
        hfresh, n_calc]
    all_goals rfl
  · intro a b c hm
    have hm1 : ta.kdj (highCol (macdStage ta (volMaStage (maStage df))))
        (lowCol (macdStage ta (volMaStage (maStage df))))
        (closeCol (macdStage ta (volMaStage (maStage df))))
        = .ok (some (a, b, c)) := by
      rw [hH1, hL1, hC1]
      exact hm
    have hpos := lookup_kdjStage_pos ta _ a b c hm1
    refine ⟨?_, ?_, ?_⟩ <;> intro hmem
    · rw [dailyPipelineCols, lookup_completeCols schema _ "k" hmem,
        lookup_calc_kdj_family ta df "k" (by decide), hpos.1]
      rfl
    · rw [dailyPipelineCols, lookup_completeCols schema _ "d" hmem,
        lookup_calc_kdj_family ta df "d" (by decide), hpos.2.1]
      rfl
    · rw [dailyPipelineCols, lookup_completeCols schema _ "j" hmem,
        lookup_calc_kdj_family ta df "j" (by decide), hpos.2.2]
      rfl
  · intro err hm name hname hmem hfresh
    have hm2 : ta.rsi (closeCol (kdjStage ta (macdStage ta
        (volMaStage (maStage df))))) 6 = .error err := by
      rw [hC2]
      exact hm
    have h3 : name = "rsi6" ∨ name = "rsi12" ∨ name = "rsi24" := by
      simpa using hname
    rcases h3 with rfl | rfl | rfl <;>
      rw [dailyPipelineCols, lookup_completeCols schema _ _ hmem,
        lookup_calc_rsi_family ta df _ (by decide),
        rsiStage_error ta _ err hm2,
        lookup_kdjStage_ne _ _ _ (by decide) (by decide) (by decide),
        lookup_macdStage_ne _ _ _ (by decide) (by decide) (by decide),
        lookup_volMaStage_ne _ _ (by decide), lookup_maStage_ne _ _ (by decide),
        hfresh, n_calc]
    all_goals rfl
  · intro v6 v12 v24 h6 h12 h24
    have h6b : ta.rsi (closeCol (kdjStage ta (macdStage ta
        (volMaStage (maStage df))))) 6 = .ok v6 := by
      rw [hC2]
      exact h6
    have h12b : ta.rsi (closeCol (kdjStage ta (macdStage ta
        (volMaStage (maStage df))))) 12 = .ok v12 := by
      rw [hC2]
      exact h12
    have h24b : ta.rsi (closeCol (kdjStage ta (macdStage ta
        (volMaStage (maStage df))))) 24 = .ok v24 := by
      rw [hC2]
      exact h24
    have hpos := lookup_rsiStage_pos ta _ v6 v12 v24 h6b h12b h24b
    refine ⟨?_, ?_, ?_⟩ <;> intro hmem
    · rw [dailyPipelineCols, lookup_completeCols schema _ "rsi6" hmem,
        lookup_calc_rsi_family ta df "rsi6" (by decide), hpos.1]
      rfl
    · rw [dailyPipelineCols, lookup_completeCols schema _ "rsi12" hmem,
        lookup_calc_rsi_family ta df "rsi12" (by decide), hpos.2.1]
      rfl
    · rw [dailyPipelineCols, lookup_completeCols schema _ "rsi24" hmem,
        lookup_calc_rsi_family ta df "rsi24" (by decide), hpos.2.2]
      rfl
  · intro err hm name hname hmem hfresh
    have hm3 : ta.bbands (closeCol (rsiStage ta (kdjStage ta (macdStage ta
        (volMaStage (maStage df)))))) = .error err := by
      rw [hC3]
      exact hm
    have h2 : name = "boll_lb" ∨ name = "boll_up" := by simpa using hname
    rcases h2 with rfl | rfl <;>
      rw [dailyPipelineCols, lookup_completeCols schema _ _ hmem,
        lookup_calc_boll_family ta df _ (by decide),
        bollStage_error ta _ err hm3,
        lookup_rsiStage_ne _ _ _ (by decide) (by decide) (by decide),
        lookup_kdjStage_ne _ _ _ (by decide) (by decide) (by decide),
        lookup_macdStage_ne _ _ _ (by decide) (by decide) (by decide),
        lookup_volMaStage_ne _ _ (by decide), lookup_maStage_ne _ _ (by decide),
        hfresh, n_calc]
    all_goals rfl
  · intro lb up hm
    have hm3 : ta.bbands (closeCol (rsiStage ta (kdjStage ta (macdStage ta
        (volMaStage (maStage df)))))) = .ok (some (lb, up)) := by
      rw [hC3]
      exact hm
    have hpos := lookup_bollStage_pos ta _ lb up hm3
    refine ⟨?_, ?_⟩ <;> intro hmem
    · rw [dailyPipelineCols, lookup_completeCols schema _ "boll_lb" hmem,
        lookup_calc_boll_family ta df "boll_lb" (by decide), hpos.1]
      rfl
    · rw [dailyPipelineCols, lookup_completeCols schema _ "boll_up" hmem,
        lookup_calc_boll_family ta df "boll_up" (by decide), hpos.2]
      rfl
  · intro err hm name hname hmem hfresh
    have hm4 : ta.cci (highCol (bollStage ta (rsiStage ta (kdjStage ta
        (macdStage ta (volMaStage (maStage df)))))))
        (lowCol (bollStage ta (rsiStage ta (kdjStage ta
          (macdStage ta (volMaStage (maStage df)))))))
        (closeCol (bollStage ta (rsiStage ta (kdjStage ta
          (macdStage ta (volMaStage (maStage df))))))) = .error err := by
      rw [hH4, hL4, hC4]
      exact hm
    have h2 : name = "cci" ∨ name = "atr" := by simpa using hname
    rcases h2 with rfl | rfl <;>
      rw [dailyPipelineCols, lookup_completeCols schema _ _ hmem, n_calc,
        calculate_indicators, cciAtrStage_error ta _ err hm4,
        lookup_prefix_ne ta df _ (by decide), hfresh]
    all_goals rfl
  · intro vc va hc ha
    have hc4 : ta.cci (highCol (bollStage ta (rsiStage ta (kdjStage ta
        (macdStage ta (volMaStage (maStage df)))))))
        (lowCol (bollStage ta (rsiStage ta (kdjStage ta
          (macdStage ta (volMaStage (maStage df)))))))
        (closeCol (bollStage ta (rsiStage ta (kdjStage ta
          (macdStage ta (volMaStage (maStage df))))))) = .ok vc := by
      rw [hH4, hL4, hC4]
      exact hc
    have ha4 : ta.atr (highCol (bollStage ta (rsiStage ta (kdjStage ta
        (macdStage ta (volMaStage (maStage df)))))))
        (lowCol (bollStage ta (rsiStage ta (kdjStage ta
          (macdStage ta (volMaStage (maStage df)))))))
        (closeCol (bollStage ta (rsiStage ta (kdjStage ta
          (macdStage ta (volMaStage (maStage df))))))) = .ok va := by
      rw [hH4, hL4, hC4]
      exact ha
    have hpos := lookup_cciAtrStage_pos ta _ vc va hc4 ha4
    refine ⟨?_, ?_⟩ <;> intro hmem
    · rw [dailyPipelineCols, lookup_completeCols schema _ "cci" hmem,
        calculate_indicators, hpos.1]
      rfl
    · rw [dailyPipelineCols, lookup_completeCols schema _ "atr" hmem,
        calculate_indicators, hpos.2]
      rfl

/-- Library behavior for the C6 witness, case 1: every guarded family
succeeds except CCI, which raises. -/
def taW : TaLib :=
  { macd := fun _ => .ok (some ([some 1], [some 2], [some 3]))
    kdj := fun _ _ _ => .ok (some ([some 4], [some 5], [some 6]))
    rsi := fun _ w => .ok [some (w : ℚ)]
    bbands := fun _ => .ok (some ([some 7], [some 8]))
    cci := fun _ _ _ => .error ()
    atr := fun _ _ _ => .ok [some 9] }

/-- Library behavior for the C6 witness, case 2: MACD raises while every
other family — including CCI and ATR — succeeds. -/
def taM : TaLib :=
  { macd := fun _ => .error ()
    kdj := fun _ _ _ => .ok (some ([some 4], [some 5], [some 6]))
    rsi := fun _ w => .ok [some (w : ℚ)]
    bbands := fun _ => .ok (some ([some 7], [some 8]))
    cci := fun _ _ _ => .ok [some 10]
    atr := fun _ _ _ => .ok [some 11] }

def schemaW : List String :=
  ["dif", "macd", "dea", "k", "d", "j", "rsi6", "rsi12", "rsi24", "boll_lb",
   "boll_up", "cci", "atr"]

/-- Witness for C6 (amended) at concrete libraries, frame and schema.  With
CCI raising, the shared CCI/ATR block degrades both columns to all-missing
while every other family's columns carry their computed values; with MACD
raising instead, dif/macd/dea degrade to all-missing while KDJ, RSI, BOLL
and also CCI and ATR are all still computed. -/
theorem c6_witness :
    taW.cci (highCol dfC) (lowCol dfC) (closeCol dfC) = .error ()
    ∧ dfC.cols.lookup "cci" = none
    ∧ dfC.cols.lookup "atr" = none
    ∧ (dailyPipelineCols taW schemaW dfC).lookup "cci"
        = some (List.replicate dfC.n none)
    ∧ (dailyPipelineCols taW schemaW dfC).lookup "atr"
        = some (List.replicate dfC.n none)
    ∧ (dailyPipelineCols taW schemaW dfC).lookup "dif" = some [some 1]
    ∧ (dailyPipelineCols taW schemaW dfC).lookup "macd" = some [some 2]
    ∧ (dailyPipelineCols taW schemaW dfC).lookup "dea" = some [some 3]
    ∧ (dailyPipelineCols taW schemaW dfC).lookup "k" = some [some 4]
    ∧ (dailyPipelineCols taW schemaW dfC).lookup "d" = some [some 5]
    ∧ (dailyPipelineCols taW schemaW dfC).lookup "j" = some [some 6]
    ∧ (dailyPipelineCols taW schemaW dfC).lookup "rsi6" = some [some 6]
    ∧ (dailyPipelineCols taW schemaW dfC).lookup "rsi12" = some [some 12]
    ∧ (dailyPipelineCols taW schemaW dfC).lookup "rsi24" = some [some 24]
    ∧ (dailyPipelineCols taW schemaW dfC).lookup "boll_lb" = some [some 7]
    ∧ (dailyPipelineCols taW schemaW dfC).lookup "boll_up" = some [some 8]
    ∧ taM.macd (closeCol dfC) = .error ()
    ∧ dfC.cols.lookup "dif" = none
    ∧ (dailyPipelineCols taM schemaW dfC).lookup "dif"
        = some (List.replicate dfC.n none)
    ∧ (dailyPipelineCols taM schemaW dfC).lookup "macd"
        = some (List.replicate dfC.n none)
    ∧ (dailyPipelineCols taM schemaW dfC).lookup "dea"
        = some (List.replicate dfC.n none)
    ∧ (dailyPipelineCols taM schemaW dfC).lookup "k" = some [some 4]
    ∧ (dailyPipelineCols taM schemaW dfC).lookup "rsi6" = some [some 6]
    ∧ (dailyPipelineCols taM schemaW dfC).lookup "boll_lb" = some [some 7]
    ∧ (dailyPipelineCols taM schemaW dfC).lookup "cci" = some [some 10]
    ∧ (dailyPipelineCols taM schemaW dfC).lookup "atr" = some [some 11] := by
  have hW := c6_isolated_families taW dfC schemaW
  have hM := c6_isolated_families taM dfC schemaW
  refine ⟨rfl, rfl, rfl, ?_, ?_, ?_, ?_, ?_, ?_, ?_, ?_, ?_, ?_, ?_, ?_, ?_,
    rfl, rfl, ?_, ?_, ?_, ?_, ?_, ?_, ?_, ?_⟩
  · exact hW.2.2.2.2.2.2.2.2.1 () rfl "cci" (by decide) (by decide) rfl
  · exact hW.2.2.2.2.2.2.2.2.1 () rfl "atr" (by decide) (by decide) rfl
  · exact (hW.2.1 [some 1] [some 2] [some 3] rfl).1 (by decide)
  · exact (hW.2.1 [some 1] [some 2] [some 3] rfl).2.1 (by decide)
  · exact (hW.2.1 [some 1] [some 2] [some 3] rfl).2.2 (by decide)
  · exact (hW.2.2.2.1 [some 4] [some 5] [some 6] rfl).1 (by decide)
  · exact (hW.2.2.2.1 [some 4] [some 5] [some 6] rfl).2.1 (by decide)
  · exact (hW.2.2.2.1 [some 4] [some 5] [some 6] rfl).2.2 (by decide)
  · exact (hW.2.2.2.2.2.1 [some 6] [some 12] [some 24] rfl rfl rfl).1 (by decide)
  · exact (hW.2.2.2.2.2.1 [some 6] [some 12] [some 24] rfl rfl rfl).2.1
      (by decide)
  · exact (hW.2.2.2.2.2.1 [some 6] [some 12] [some 24] rfl rfl rfl).2.2
      (by decide)
  · exact (hW.2.2.2.2.2.2.2.1 [some 7] [some 8] rfl).1 (by decide)
  · exact (hW.2.2.2.2.2.2.2.1 [some 7] [some 8] rfl).2 (by decide)
  · exact hM.1 () rfl "dif" (by decide) (by decide) rfl
  · exact hM.1 () rfl "macd" (by decide) (by decide) rfl
  · exact hM.1 () rfl "dea" (by decide) (by decide) rfl
  · exact (hM.2.2.2.1 [some 4] [some 5] [some 6] rfl).1 (by decide)
  · exact (hM.2.2.2.2.2.1 [some 6] [some 12] [some 24] rfl rfl rfl).1 (by decide)
  · exact (hM.2.2.2.2.2.2.2.1 [some 7] [some 8] rfl).1 (by decide)
  · exact (hM.2.2.2.2.2.2.2.2.2 [some 10] [some 11] rfl rfl).1 (by decide)
  · exact (hM.2.2.2.2.2.2.2.2.2 [some 10] [some 11] rfl rfl).2 (by decide)

/-! ## Sector Rollup Engine (spec §4.6)

No script under src/ implements the sector fund-flow rollup: the sector
scripts only download sector bars and the membership relation.  The rollup
is therefore modelled from the spec below.
-/

/-- A sector price bar; `close` stands for the non-flow columns. -/
structure SectorBar where
  code : String
  date : Int
  close : ℚ
  flows : FlowCol → Option ℚ

/-- One entity's fund-flow row as produced by §4.2-4.3. -/
structure EFlowRow where
  code : String
  date : Int
  flows : FlowCol → Option ℚ

/-- Modelled from the spec: the Sector Rollup Engine of §4.6 is absent from
src/ (the sector scripts only download data).  Per the spec, entity fund-flow
rows are grouped by (sector, date) through the membership join, each flow
tranche is summed, the grouped sums are left-joined onto the sector bar
table, and a (sector, date) with no matching entity flow data defaults to an
explicit zero; non-flow columns pass through unchanged. -/
def rollupRow (membership : List (String × String)) (flows : List EFlowRow)
    (sb : SectorBar) : SectorBar :=
  { sb with flows := (fun col =>
      some (List.sum (List.filterMap (fun f => f.flows col)
        (flows.filter (fun f =>
          decide ((sb.code, f.code) ∈ membership ∧ f.date = sb.date)))))) }

/-- Modelled from the spec: the rollup applied to the whole sector table. -/
def sectorRollup (membership : List (String × String)) (flows : List EFlowRow)
    (sectors : List SectorBar) : List SectorBar :=
  sectors.map (rollupRow membership flows)

/-! ### Claim C7 -/

/-- C7: for every sector bar with no member entity contributing fund-flow
data at its date, the rolled-up flow columns are exactly (some) 0 — an
explicit zero, never the missing value — and all non-flow columns pass
through unchanged; each sector bar is mapped in place. -/
theorem c7_sector_zero_fill (membership : List (String × String))
    (flows : List EFlowRow) (sectors : List SectorBar) :
    (∀ sb ∈ sectors,
      (∀ f ∈ flows, ¬((sb.code, f.code) ∈ membership ∧ f.date = sb.date)) →
      (rollupRow membership flows sb).code = sb.code
      ∧ (rollupRow membership flows sb).date = sb.date
      ∧ (rollupRow membership flows sb).close = sb.close
      ∧ (∀ col, (rollupRow membership flows sb).flows col = some 0))
    ∧ (∀ sb ∈ sectors, rollupRow membership flows sb
        ∈ sectorRollup membership flows sectors) := by
  refine ⟨?_, ?_⟩
  · intro sb _ hno
    refine ⟨rfl, rfl, rfl, ?_⟩
    intro col
    have hfil : flows.filter (fun f =>
        decide ((sb.code, f.code) ∈ membership ∧ f.date = sb.date)) = [] := by
      rw [List.filter_eq_nil_iff]
      intro f hf
      simp only [decide_eq_true_eq]
      exact hno f hf
    show some (List.sum (List.filterMap (fun f => f.flows col)
      (flows.filter (fun f =>
        decide ((sb.code, f.code) ∈ membership ∧ f.date = sb.date))))) = some 0
    rw [hfil]
    rfl
  · intro sb hsb
    exact List.mem_map_of_mem _ hsb

/-- Witness for C7: a sector bar dated 30 with one membership pair but no
flow row at that date rolls up to flows exactly (some) 0 with the close
passed through. -/
theorem c7_witness :
    ((⟨"S", 30, 7, fun _ => none⟩ : SectorBar) ∈
      ([⟨"S", 30, 7, fun _ => none⟩] : List SectorBar))
    ∧ (∀ f ∈ ([⟨"X", 29, fun _ => some 100⟩] : List EFlowRow),
        ¬((("S", f.code) ∈ ([("S", "X")] : List (String × String)))
          ∧ f.date = 30))
    ∧ ((rollupRow [("S", "X")] [⟨"X", 29, fun _ => some 100⟩]
          ⟨"S", 30, 7, fun _ => none⟩).close = 7
      ∧ (∀ col, (rollupRow [("S", "X")] [⟨"X", 29, fun _ => some 100⟩]
          ⟨"S", 30, 7, fun _ => none⟩).flows col = some 0)) := by
  have hno : ∀ f ∈ ([⟨"X", 29, fun _ => some 100⟩] : List EFlowRow),
      ¬((("S", f.code) ∈ ([("S", "X")] : List (String × String)))
        ∧ f.date = 30) := by
    intro f hf
    rw [List.mem_singleton] at hf
    subst hf
    rintro ⟨_, hd⟩
    exact absurd hd (by decide)
  have h := (c7_sector_zero_fill [("S", "X")] [⟨"X", 29, fun _ => some 100⟩]
    [⟨"S", 30, 7, fun _ => none⟩]).1 ⟨"S", 30, 7, fun _ => none⟩
    (List.mem_singleton_self _) hno
  exact ⟨List.mem_singleton_self _, hno, h.2.2.1, h.2.2.2⟩

/-! ## Streaming Writer partitions (merge_data.py, lines 216-220 and 335-343)

Each run opens fresh ParquetWriters for the local cache buffer file
(cache_data/stock_buffer.parquet) and for the hot per-year output
(stock_daily/stock_{year}.parquet).  Every entity's full reconciled series is
written to the cache buffer; the rows whose ISO date string is ≥
"{year}-01-01" — calendar order, below — are written to the hot file.
-/

/-- A written output row; `close` stands for the payload columns. -/
structure ORow where
  code : String
  date : Date
  close : ℚ
deriving DecidableEq

/-- Comparison of zero-padded ISO date strings is calendar lexicographic
order on (y, m, d). -/
def dateLeCal (a b : Date) : Bool :=
  decide (a.y < b.y ∨ (a.y = b.y ∧ (a.m < b.m ∨ (a.m = b.m ∧ a.d ≤ b.d))))

structure RunOutput where
  cacheRows : List ORow
  hotRows : List ORow
deriving DecidableEq

/-- The writer phase of one run: the cache buffer receives all rows, the hot
file receives the rows dated on or after Jan 1 of the processing year.  Both
files are created from scratch by this run (ParquetWriter truncates). -/
def writePhase (year : Int) (rows : List ORow) : RunOutput :=
  { cacheRows := rows
    hotRows := rows.filter (fun r => dateLeCal ⟨year, 1, 1⟩ r.date) }

/-- Modelled from the spec: the archival (pre-current-year) publication step
is not in the scripts under src/ (it belongs to the excluded orchestration);
per §4.5 the archival partition is written only if it does not already
exist. -/
def archivalWrite (alreadyExists : Bool) (prev : Option (List ORow))
    (rows : List ORow) : Option (List ORow) :=
  if alreadyExists then prev else some rows

/-! ### Claim C8 -/

/-- Counterexample to C8 as stated: with a 2023 row and a 2024 row in the
same run, the local cache file receives both rows while the hot 2024
partition receives only the 2024 row — the cache is the full series, not a
duplicate of the hot partition. -/
theorem c8_counterexample :
    (writePhase 2024 [⟨"A", ⟨2023, 5, 1⟩, 1⟩, ⟨"A", ⟨2024, 2, 1⟩, 2⟩]).cacheRows
      ≠ (writePhase 2024
          [⟨"A", ⟨2023, 5, 1⟩, 1⟩, ⟨"A", ⟨2024, 2, 1⟩, 2⟩]).hotRows := by
  decide

/-- C8 (amended): each run rewrites the hot current-year partition from
scratch with exactly the rows dated on or after Jan 1 of the processing
year, and rewrites the local cache file with the full reconciled series —
a superset of the hot partition — for use as the next run's cold input;
the archival partition (spec-modelled, absent from src/) is left untouched
when it already exists. -/
theorem c8_partitions (year : Int) (rows : List ORow) :
    (writePhase year rows).cacheRows = rows
    ∧ (∀ r, r ∈ (writePhase year rows).hotRows ↔
        (r ∈ rows ∧ dateLeCal ⟨year, 1, 1⟩ r.date = true))
    ∧ ((writePhase year rows).hotRows.Sublist (writePhase year rows).cacheRows)
    ∧ (∀ (b : Bool) (prev : Option (List ORow)), b = true →
        archivalWrite b prev rows = prev) := by
  refine ⟨rfl, ?_, ?_, ?_⟩
  · intro r
    exact List.mem_filter
  · exact List.filter_sublist _
  · intro b prev hb
    rw [archivalWrite, if_pos hb]

def rowsC8 : List ORow := [⟨"A", ⟨2023, 5, 1⟩, 1⟩, ⟨"A", ⟨2024, 2, 1⟩, 2⟩]

/-- Witness for C8 (amended) at a concrete two-year run. -/
theorem c8_witness :
    ((writePhase 2024 rowsC8).cacheRows = rowsC8)
    ∧ ((⟨"A", ⟨2024, 2, 1⟩, 2⟩ : ORow) ∈ (writePhase 2024 rowsC8).hotRows ↔
        ((⟨"A", ⟨2024, 2, 1⟩, 2⟩ : ORow) ∈ rowsC8
          ∧ dateLeCal ⟨2024, 1, 1⟩ ⟨2024, 2, 1⟩ = true))
    ∧ ((writePhase 2024 rowsC8).hotRows.Sublist (writePhase 2024 rowsC8).cacheRows)
    ∧ (true = true ∧ archivalWrite true (some []) rowsC8 = some []) :=
  ⟨(c8_partitions 2024 rowsC8).1,
   (c8_partitions 2024 rowsC8).2.1 ⟨"A", ⟨2024, 2, 1⟩, 2⟩,
   (c8_partitions 2024 rowsC8).2.2.1,
   rfl,
   (c8_partitions 2024 rowsC8).2.2.2 true (some []) rfl⟩

/-! ## Global output order (merge_data.py, get_all_codes line 58 and the
main loop writers, lines 229-343)

`sorted(list(codes))` iterates the deduplicated entity codes in ascending
order; for each code the entity's reconciled (date-sorted) block is appended
to the output writers, so the concatenated output file is ordered by
(code, date) without a separate compaction pass.
-/

def leStr (a b : String) : Bool := decide (a ≤ b)

/-- get_all_codes: the union of historical and incremental codes,
deduplicated and sorted ascending. -/
def get_all_codes (histCodes klineCodes : List String) : List String :=
  ((histCodes ++ klineCodes).dedup).mergeSort leStr

/-- The daily output of one run: each code's reconciled block, appended in
code order. -/
def dailyOutput {α : Type} [DecidableEq α] (histCodes klineCodes : List String)
    (hist new : String → List (SRow α)) : List (SRow α) :=
  (get_all_codes histCodes klineCodes).flatMap
    (fun c => reconcile (hist c) (new c))

theorem get_all_codes_sorted_lt (histCodes klineCodes : List String) :
    List.Pairwise (fun a b : String => a < b)
      (get_all_codes histCodes klineCodes) := by
  have hperm : (get_all_codes histCodes klineCodes).Perm
      ((histCodes ++ klineCodes).dedup) := List.mergeSort_perm _ _
  have hnd : (get_all_codes histCodes klineCodes).Nodup :=
    hperm.symm.nodup (List.nodup_dedup _)
  have hle := @List.sorted_mergeSort String leStr
    (fun a b c hab hbc => by
      simp only [leStr, decide_eq_true_eq] at hab hbc ⊢
      exact le_trans hab hbc)
    (fun a b => by
      simp only [leStr]
      rcases le_total a b with h | h
      · simp [h]
      · simp [h])
    ((histCodes ++ klineCodes).dedup)
  have hle2 : List.Pairwise (fun a b : String => a ≤ b)
      (get_all_codes histCodes klineCodes) :=
    hle.imp (fun hab => by simpa [leStr] using hab)
  exact (hle2.and hnd).imp (fun hab => lt_of_le_of_ne hab.1 hab.2)

theorem pairwise_flatMap_blocks {α : Type} (codes : List String)
    (f : String → List (SRow α))
    (hstrict : List.Pairwise (fun a b : String => a < b) codes)
    (hcode : ∀ c, ∀ r ∈ f c, r.code = c)
    (hsor : ∀ c, List.Sorted (fun a b : SRow α => a.date ≤ b.date) (f c)) :
    List.Pairwise (fun a b : SRow α =>
      a.code < b.code ∨ (a.code = b.code ∧ a.date ≤ b.date))
      (codes.flatMap f) := by
  induction codes with
  | nil => simp
  | cons c codes ih =>
    rw [List.flatMap_cons, List.pairwise_append]
    refine ⟨?_, ih (List.pairwise_cons.mp hstrict).2, ?_⟩
    · exact (hsor c).imp_of_mem (fun ha hb hab =>
        Or.inr ⟨(hcode c _ ha).trans (hcode c _ hb).symm, hab⟩)
    · intro a ha b hb
      rcases List.mem_flatMap.mp hb with ⟨c', hc', hbc'⟩
      left
      rw [hcode c a ha, hcode c' b hbc']
      exact (List.pairwise_cons.mp hstrict).1 c' hc'

/-! ### Claim C9 -/

/-- C9: under per-entity shard discipline (every row of an entity's shards
carries that entity's code), the daily output of one run — entity blocks
appended in ascending code order, each block date-ascending — is globally
sorted by (code, date) by construction, with no separate compaction pass. -/
theorem c9_output_globally_sorted {α : Type} [DecidableEq α]
    (histCodes klineCodes : List String) (hist new : String → List (SRow α))
    (hc : ∀ c, ∀ r ∈ hist c ++ new c, r.code = c) :
    List.Pairwise (fun a b : SRow α =>
      a.code < b.code ∨ (a.code = b.code ∧ a.date ≤ b.date))
      (dailyOutput histCodes klineCodes hist new) := by
  rw [dailyOutput]
  apply pairwise_flatMap_blocks _ _ (get_all_codes_sorted_lt histCodes klineCodes)
  · intro c r hr
    exact hc c r (reconcile_subset (hist c) (new c) hr)
  · intro c
    exact reconcile_sorted (hist c) (new c)

def histW9 : String → List (SRow ℚ) := fun c => [⟨c, 5, 1⟩]

def newW9 : String → List (SRow ℚ) := fun _ => []

/-- Witness for C9 at two concrete codes with one-row shard functions. -/
theorem c9_witness :
    (∀ c, ∀ r ∈ histW9 c ++ newW9 c, r.code = c)
    ∧ List.Pairwise (fun a b : SRow ℚ =>
        a.code < b.code ∨ (a.code = b.code ∧ a.date ≤ b.date))
        (dailyOutput ["sz.000002", "sz.000001"] ["sz.000001"] histW9 newW9) :=
  ⟨by
    intro c r hr
    simp only [histW9, newW9, List.append_nil, List.mem_singleton] at hr
    subst hr
    rfl,
   c9_output_globally_sorted ["sz.000002", "sz.000001"] ["sz.000001"]
     histW9 newW9
     (by
       intro c r hr
       simp only [histW9, newW9, List.append_nil, List.mem_singleton] at hr
       subst hr
       rfl)⟩

/-! ## Market-capitalization derivation (download_kline.py, lines 84-90)

`safe_turn = df_k['turn'].replace(0, np.nan)` — a zero turnover becomes
missing before ever being used as a divisor;
`float_shares = df_k['volume'] / (safe_turn / 100)`;
`df_k['mkt_cap'] = df_k['close'] * float_shares` — NaN-propagating
elementwise arithmetic; `.ffill().fillna(0.0)` — forward-fill then replace
remaining missing values by 0.0.
-/

def safeTurn (t : Option ℚ) : Option ℚ :=
  t.bind (fun v => if v = 0 then none else some v)

def optDiv (a b : Option ℚ) : Option ℚ :=
  match a, b with
  | some x, some y => some (x / y)
  | _, _ => none

def optMul (a b : Option ℚ) : Option ℚ :=
  match a, b with
  | some x, some y => some (x * y)
  | _, _ => none

/-- One row's raw market cap: close * (volume / (safe_turn / 100)). -/
def rawCap (close volume turn : Option ℚ) : Option ℚ :=
  optMul close (optDiv volume ((safeTurn turn).map (fun v => v / 100)))

def ffillAux (acc : Option ℚ) : List (Option ℚ) → List (Option ℚ)
  | [] => []
  | x :: rest =>
    match x with
    | some v => some v :: ffillAux (some v) rest
    | none => acc :: ffillAux acc rest

/-- `Series.ffill`: replace each missing value by the last preceding
non-missing value (missing when there is none yet). -/
def ffill (xs : List (Option ℚ)) : List (Option ℚ) := ffillAux none xs

/-- `Series.fillna(d)`. -/
def fillna (d : ℚ) (xs : List (Option ℚ)) : List (Option ℚ) :=
  xs.map (fun x => some (x.getD d))

/-- The mkt_cap column of download_kline.py lines 84-88. -/
def mkt_cap_col (closes volumes turns : List (Option ℚ)) : List (Option ℚ) :=
  fillna 0 (ffill (List.zipWith3 rawCap closes volumes turns))

theorem lastSome_cons (x : Option ℚ) (l : List (Option ℚ)) :
    lastSome (x :: l) =
      match lastSome l with
      | some w => some w
      | none => x := by
  rw [lastSome, List.reverse_cons, List.findSome?_append]
  rcases hl : List.findSome? id l.reverse with _ | w
  · rw [show lastSome l = none from hl]
    cases x <;> rfl
  · rw [show lastSome l = some w from hl]
    rfl

theorem ffillAux_getElem (xs : List (Option ℚ)) :
    ∀ (acc : Option ℚ) (i : Nat), i < xs.length →
      (ffillAux acc xs)[i]? =
        some (match lastSome (xs.take (i + 1)) with
          | some v => some v
          | none => acc) := by
  induction xs with
  | nil =>
    intro acc i hi
    simp at hi
  | cons x xs ih =>
    intro acc i hi
    cases x with
    | some v =>
      rw [show ffillAux acc (some v :: xs) = some v :: ffillAux (some v) xs
          from rfl]
      cases i with
      | zero =>
        rw [show ((some v :: xs).take 1) = [some v] from rfl]
        rw [show lastSome [some v] = some v from rfl, List.getElem?_cons_zero]
      | succ j =>
        have hj : j < xs.length := by simpa using hi
        rw [List.getElem?_cons_succ, ih (some v) j hj,
          show (some v :: xs).take (j + 2) = some v :: xs.take (j + 1) from rfl,
          lastSome_cons]
        rcases lastSome (xs.take (j + 1)) with _ | w <;> rfl
    | none =>
      rw [show ffillAux acc (none :: xs) = acc :: ffillAux acc xs from rfl]
      cases i with
      | zero =>
        rw [show ((none :: xs).take 1) = [none] from rfl]
        rw [show lastSome [(none : Option ℚ)] = none from rfl,
          List.getElem?_cons_zero]
      | succ j =>
        have hj : j < xs.length := by simpa using hi
        rw [List.getElem?_cons_succ, ih acc j hj,
          show (none :: xs).take (j + 2) = none :: xs.take (j + 1) from rfl,
          lastSome_cons]
        rcases lastSome (xs.take (j + 1)) with _ | w <;> rfl

/-! ### Claim C10 -/

/-- C10: a zero turnover is replaced by the missing value before it is used
as a divisor — a raw cap is only ever produced from a non-missing, nonzero
turnover — and the resulting mkt_cap column is never missing: position i
carries the last computable raw cap at or before i, and 0 when none exists
yet. -/
theorem c10_mkt_cap_safety (closes volumes turns : List (Option ℚ)) :
    (∀ x ∈ mkt_cap_col closes volumes turns, x.isSome)
    ∧ (∀ i, i < (List.zipWith3 rawCap closes volumes turns).length →
        (mkt_cap_col closes volumes turns)[i]? =
          some (some ((lastSome
            ((List.zipWith3 rawCap closes volumes turns).take (i + 1))).getD 0)))
    ∧ (∀ c v, rawCap c v (some 0) = none)
    ∧ (∀ c v t, rawCap c v t ≠ none → ∃ tv, t = some tv ∧ tv ≠ 0) := by
  refine ⟨?_, ?_, ?_, ?_⟩
  · intro x hx
    rcases List.mem_map.mp hx with ⟨y, _, rfl⟩
    rfl
  · intro i hi
    have hlen : i < (ffill (List.zipWith3 rawCap closes volumes turns)).length := by
      rw [ffill]
      have : ∀ (acc : Option ℚ) (l : List (Option ℚ)),
          (ffillAux acc l).length = l.length := by
        intro acc l
        induction l generalizing acc with
        | nil => rfl
        | cons x l ihl =>
          cases x with
          | some v =>
            rw [show ffillAux acc (some v :: l) = some v :: ffillAux (some v) l
              from rfl]
            simp [ihl]
          | none =>
            rw [show ffillAux acc (none :: l) = acc :: ffillAux acc l from rfl]
            simp [ihl]
      rw [this]
      exact hi
    rw [mkt_cap_col, fillna, List.getElem?_map, ffill,
      ffillAux_getElem _ none i hi]
    rcases lastSome ((List.zipWith3 rawCap closes volumes turns).take (i + 1))
      with _ | w <;> rfl
  · intro c v
    cases c <;> cases v <;> rfl
  · intro c v t hne
    cases t with
    | none =>
      exfalso
      apply hne
      cases c <;> cases v <;> rfl
    | some tv =>
      refine ⟨tv, rfl, ?_⟩
      intro h0
      apply hne
      subst h0
      cases c <;> cases v <;> rfl

/-- Witness for C10 at a concrete three-row shard: row 0 has zero turnover
(missing raw cap, filled with 0), row 1 computes 20 * (100 / (50/100)) =
4000, row 2 has missing turnover and forward-fills 4000. -/
theorem c10_witness :
    (2 < (List.zipWith3 rawCap [some 10, some 20, some 30]
        [some 100, some 100, some 100] [some 0, some 50, none]).length)
    ∧ ((mkt_cap_col [some 10, some 20, some 30] [some 100, some 100, some 100]
        [some 0, some 50, none])[2]? =
      some (some ((lastSome ((List.zipWith3 rawCap [some 10, some 20, some 30]
        [some 100, some 100, some 100] [some 0, some 50, none]).take 3)).getD 0)))
    ∧ rawCap (some 10) (some 100) (some 0) = none
    ∧ (rawCap (some 20) (some 100) (some 50) ≠ none
      ∧ ∃ tv, (some (50 : ℚ)) = some tv ∧ tv ≠ 0)
    ∧ (mkt_cap_col [some 10, some 20, some 30] [some 100, some 100, some 100]
        [some 0, some 50, none]) = [some 0, some 4000, some 4000] := by
  refine ⟨by decide, ?_, ?_, ⟨by decide, ?_⟩, ?_⟩
  · exact (c10_mkt_cap_safety [some 10, some 20, some 30]
      [some 100, some 100, some 100] [some 0, some 50, none]).2.1 2 (by decide)
  · exact (c10_mkt_cap_safety [] [] []).2.2.1 (some 10) (some 100)
  · exact (c10_mkt_cap_safety [] [] []).2.2.2 (some 20) (some 100) (some 50)
      (by decide)
  · simp only [mkt_cap_col, List.zipWith3, rawCap, optMul, optDiv, safeTurn,
      Option.bind, Option.map, ffill, ffillAux, fillna, List.map, Option.getD]
    norm_num
